import Mathlib

/-!
Verification of the EA-repository core: a shallow embedding of the
metamodel tables, the graph repository, the scope / reference-framework
policies, the governance save-gate, the undo/redo history, and the view
repository, together with theorems settling the specification claims.

Source artefacts embedded (TypeScript):
- `eaMetaModel` : OBJECT_TYPES, RELATIONSHIP_TYPES, OBJECT_TYPE_DEFINITIONS
  (layer projection), RELATIONSHIP_TYPE_DEFINITIONS (fromTypes/toTypes),
  isValidObjectType, isValidRelationshipType.
- `RelationshipSemantics` : RELATIONSHIP_ENDPOINT_RULES,
  getRelationshipEndpointRule.
- `eaRepository` : EaRepository (addObject, addRelationship,
  updateObjectAttributes, clone, validateReference).
- `architectureScopePolicy` : isObjectTypeWritableForScope.
- `referenceFrameworkPolicy` : isRelationshipTypeAllowedForReferenceFramework.
- `EaRepositoryContext` : the commit effect's history tracking (undo/redo
  stacks, HISTORY_LIMIT) and the Strict-governance save gate.
- `ViewRepository` : createView / deleteViewById with the per-view-type
  allow lists and endpoint-coverage validation.
-/

/-! ## JS string primitives

`String.prototype.trim` and `String.prototype.toLowerCase` are modelled
executably over the character list so that concrete evaluations reduce in
the kernel. All identifiers and type names in this code base are ASCII. -/

def jsIsWhitespace (c : Char) : Bool :=
  c = ' ' || c = '\t' || c = '\n' || c = '\r' || c = '\x0b' || c = '\x0c'

def jsTrimChars (l : List Char) : List Char :=
  ((l.dropWhile jsIsWhitespace).reverse.dropWhile jsIsWhitespace).reverse

/-- JS `value.trim()`. -/
def jsTrim (s : String) : String := ⟨jsTrimChars s.data⟩

def jsLowerChar : Char → Char
  | 'A' => 'a' | 'B' => 'b' | 'C' => 'c' | 'D' => 'd' | 'E' => 'e' | 'F' => 'f'
  | 'G' => 'g' | 'H' => 'h' | 'I' => 'i' | 'J' => 'j' | 'K' => 'k' | 'L' => 'l'
  | 'M' => 'm' | 'N' => 'n' | 'O' => 'o' | 'P' => 'p' | 'Q' => 'q' | 'R' => 'r'
  | 'S' => 's' | 'T' => 't' | 'U' => 'u' | 'V' => 'v' | 'W' => 'w' | 'X' => 'x'
  | 'Y' => 'y' | 'Z' => 'z'
  | c => c

/-- JS `value.toLowerCase()` (ASCII). -/
def jsToLower (s : String) : String := ⟨s.data.map jsLowerChar⟩

/-! ## Metamodel: object and relationship types (`eaMetaModel`) -/

inductive EaLayer
  | Strategy
  | Business
  | Application
  | Technology
deriving DecidableEq, Repr

inductive ObjectType
  | Enterprise
  | CapabilityCategory
  | Capability
  | SubCapability
  | BusinessService
  | BusinessProcess
  | Department
  | Application
  | ApplicationService
  | Technology
  | Programme
  | Project
  | Principle
  | Requirement
deriving DecidableEq, Repr, Fintype

/-- The string name of each object type, as it appears in `OBJECT_TYPES`. -/
def objectTypeName : ObjectType → String
  | .Enterprise => "Enterprise"
  | .CapabilityCategory => "CapabilityCategory"
  | .Capability => "Capability"
  | .SubCapability => "SubCapability"
  | .BusinessService => "BusinessService"
  | .BusinessProcess => "BusinessProcess"
  | .Department => "Department"
  | .Application => "Application"
  | .ApplicationService => "ApplicationService"
  | .Technology => "Technology"
  | .Programme => "Programme"
  | .Project => "Project"
  | .Principle => "Principle"
  | .Requirement => "Requirement"

/-- All object types in the source order of `OBJECT_TYPES`. -/
def allObjectTypes : List ObjectType :=
  [.Enterprise, .CapabilityCategory, .Capability, .SubCapability, .BusinessService,
   .BusinessProcess, .Department, .Application, .ApplicationService, .Technology,
   .Programme, .Project, .Principle, .Requirement]

/-- `OBJECT_TYPES` : the closed list of object type names. -/
def OBJECT_TYPES : List String := allObjectTypes.map objectTypeName

/-- `isValidObjectType` (membership test on `OBJECT_TYPES`), refined to also
return the parsed member so the repository can use the typed value. -/
def parseObjectType (s : String) : Option ObjectType :=
  allObjectTypes.find? (fun t => objectTypeName t = s)

def isValidObjectType (s : String) : Bool := OBJECT_TYPES.contains s

inductive RelationshipType
  | DECOMPOSES_TO
  | REALIZES
  | DEPENDS_ON
  | HOSTED_ON
  | OWNS
  | HAS
  | REALIZED_BY
  | PROVIDES
  | SUPPORTS
  | SUPPORTED_BY
  | IMPACTS
  | IMPLEMENTS
  | DELIVERS
deriving DecidableEq, Repr, Fintype

/-- The string name of each relationship type, as in `RELATIONSHIP_TYPES`. -/
def relationshipTypeName : RelationshipType → String
  | .DECOMPOSES_TO => "DECOMPOSES_TO"
  | .REALIZES => "REALIZES"
  | .DEPENDS_ON => "DEPENDS_ON"
  | .HOSTED_ON => "HOSTED_ON"
  | .OWNS => "OWNS"
  | .HAS => "HAS"
  | .REALIZED_BY => "REALIZED_BY"
  | .PROVIDES => "PROVIDES"
  | .SUPPORTS => "SUPPORTS"
  | .SUPPORTED_BY => "SUPPORTED_BY"
  | .IMPACTS => "IMPACTS"
  | .IMPLEMENTS => "IMPLEMENTS"
  | .DELIVERS => "DELIVERS"

/-- All relationship types in the source order of `RELATIONSHIP_TYPES`. -/
def allRelationshipTypes : List RelationshipType :=
  [.DECOMPOSES_TO, .REALIZES, .DEPENDS_ON, .HOSTED_ON, .OWNS, .HAS, .REALIZED_BY,
   .PROVIDES, .SUPPORTS, .SUPPORTED_BY, .IMPACTS, .IMPLEMENTS, .DELIVERS]

def RELATIONSHIP_TYPES : List String := allRelationshipTypes.map relationshipTypeName

/-- `isValidRelationshipType`, refined to return the parsed member. -/
def parseRelationshipType (s : String) : Option RelationshipType :=
  allRelationshipTypes.find? (fun t => relationshipTypeName t = s)

def isValidRelationshipType (s : String) : Bool := RELATIONSHIP_TYPES.contains s

/-- The `layer` field of `OBJECT_TYPE_DEFINITIONS` (the only field of the
object-type definition table that any embedded operation consumes). -/
def objectTypeLayer : ObjectType → EaLayer
  | .Enterprise => .Business
  | .Programme => .Strategy
  | .Project => .Strategy
  | .Principle => .Strategy
  | .Requirement => .Strategy
  | .CapabilityCategory => .Business
  | .Capability => .Business
  | .SubCapability => .Business
  | .BusinessProcess => .Business
  | .BusinessService => .Business
  | .Department => .Business
  | .Application => .Application
  | .ApplicationService => .Application
  | .Technology => .Technology

structure EaRelationshipTypeDefinition where
  fromTypes : List ObjectType
  toTypes : List ObjectType
deriving DecidableEq, Repr

/-- `RELATIONSHIP_TYPE_DEFINITIONS` : the enforced `fromTypes` / `toTypes`
of the full relationship-type definition table. -/
def RELATIONSHIP_TYPE_DEFINITIONS : RelationshipType → EaRelationshipTypeDefinition
  | .DECOMPOSES_TO =>
      { fromTypes := [.CapabilityCategory, .Capability, .SubCapability],
        toTypes := [.CapabilityCategory, .Capability, .SubCapability] }
  | .REALIZES => { fromTypes := [.BusinessProcess], toTypes := [.Application] }
  | .DEPENDS_ON => { fromTypes := [.Application], toTypes := [.Application] }
  | .HOSTED_ON => { fromTypes := [.Application], toTypes := [.Technology] }
  | .DELIVERS =>
      { fromTypes := [.Programme],
        toTypes := [.CapabilityCategory, .Capability, .SubCapability, .Application] }
  | .OWNS =>
      { fromTypes := [.Enterprise],
        toTypes := [.Enterprise, .Capability, .Application, .Programme] }
  | .HAS => { fromTypes := [.Enterprise], toTypes := [.Department] }
  | .REALIZED_BY =>
      { fromTypes := [.Capability, .SubCapability], toTypes := [.BusinessService] }
  | .PROVIDES => { fromTypes := [.Application], toTypes := [.ApplicationService] }
  | .SUPPORTS => { fromTypes := [.ApplicationService], toTypes := [.BusinessService] }
  | .SUPPORTED_BY =>
      { fromTypes := [.Capability, .SubCapability], toTypes := [.Application] }
  | .IMPACTS => { fromTypes := [.Programme], toTypes := [.Capability, .SubCapability] }
  | .IMPLEMENTS => { fromTypes := [.Project], toTypes := [.Application] }

/-! ## Canonical endpoint rules (`RelationshipSemantics`) -/

structure RelationshipEndpointRule where
  ruleFrom : List String
  ruleTo : List String
deriving DecidableEq, Repr

/-- `RELATIONSHIP_ENDPOINT_RULES` : the canonical endpoint-rule record,
keyed by relationship-type name, in source order. -/
def RELATIONSHIP_ENDPOINT_RULES : List (String × RelationshipEndpointRule) :=
  [("DECOMPOSES_TO", { ruleFrom := ["Capability"], ruleTo := ["Capability"] }),
   ("REALIZES", { ruleFrom := ["BusinessProcess"], ruleTo := ["Application"] }),
   ("OWNS", { ruleFrom := ["Enterprise"],
              ruleTo := ["Enterprise", "Capability", "Application", "Programme"] }),
   ("HAS", { ruleFrom := ["Enterprise"], ruleTo := ["Department"] }),
   ("REALIZED_BY", { ruleFrom := ["Capability"], ruleTo := ["BusinessService"] }),
   ("PROVIDES", { ruleFrom := ["Application"], ruleTo := ["ApplicationService"] }),
   ("SUPPORTS", { ruleFrom := ["ApplicationService"], ruleTo := ["BusinessService"] }),
   ("SUPPORTED_BY", { ruleFrom := ["Capability"], ruleTo := ["Application"] }),
   ("DEPENDS_ON", { ruleFrom := ["Application"], ruleTo := ["Application"] }),
   ("HOSTED_ON", { ruleFrom := ["Application"], ruleTo := ["Technology"] }),
   ("IMPACTS", { ruleFrom := ["Programme"], ruleTo := ["Capability"] }),
   ("IMPLEMENTS", { ruleFrom := ["Project"], ruleTo := ["Application"] }),
   ("DELIVERS", { ruleFrom := ["Programme"],
                  ruleTo := ["Capability", "Application", "Technology"] })]

/-- `getRelationshipEndpointRule` : trims the key and looks it up. -/
def getRelationshipEndpointRule (type : String) : Option RelationshipEndpointRule :=
  (RELATIONSHIP_ENDPOINT_RULES.find? (fun p => p.1 = jsTrim type)).map (fun p => p.2)

/-! ## C1 helpers: set-comparison of the two endpoint tables -/

def listSubsetStr (a b : List String) : Bool := a.all (fun x => b.contains x)

def sameStringSet (a b : List String) : Bool := listSubsetStr a b && listSubsetStr b a

/-- Mutual consistency of the canonical endpoint rule and the full
relationship-type definition at one relationship type, comparing the
`from`/`fromTypes` and `to`/`toTypes` lists as sets of object types. -/
def endpointTablesConsistentAt (t : RelationshipType) : Bool :=
  match getRelationshipEndpointRule (relationshipTypeName t) with
  | none => false
  | some rule =>
      sameStringSet rule.ruleFrom ((RELATIONSHIP_TYPE_DEFINITIONS t).fromTypes.map objectTypeName)
      && sameStringSet rule.ruleTo ((RELATIONSHIP_TYPE_DEFINITIONS t).toTypes.map objectTypeName)

/-! ## Architecture scope policy (`architectureScopePolicy`) -/

/-- `isObjectTypeWritableForScope` : the scope argument is modelled as
`Option String` (`none` = null/undefined). -/
def isObjectTypeWritableForScope (architectureScope : Option String)
    (objectType : ObjectType) : Bool :=
  let layer := objectTypeLayer objectType
  if architectureScope = some "Programme" then
    objectType = .Programme || objectType = .Project ||
      objectType = .Capability || objectType = .Application
  else if architectureScope = some "Business Unit" then
    layer = .Business || layer = .Application || layer = .Technology
  else if architectureScope = some "Domain" then
    objectType = .Capability || objectType = .BusinessService ||
      objectType = .Application || objectType = .ApplicationService
  else
    true

/-- Spec-side statement of the scope table, written in the claim's order:
Business Unit by layer, Domain and Programme by explicit type lists,
everything else (including no scope) unrestricted. -/
def scopeWritableSpecTable (architectureScope : Option String)
    (objectType : ObjectType) : Bool :=
  if architectureScope = some "Business Unit" then
    decide (objectTypeLayer objectType ∈ [EaLayer.Business, EaLayer.Application, EaLayer.Technology])
  else if architectureScope = some "Domain" then
    decide (objectType ∈ [ObjectType.Capability, ObjectType.BusinessService,
      ObjectType.Application, ObjectType.ApplicationService])
  else if architectureScope = some "Programme" then
    decide (objectType ∈ [ObjectType.Programme, ObjectType.Project,
      ObjectType.Capability, ObjectType.Application])
  else
    true

/-! ## Reference framework policy (`referenceFrameworkPolicy`) -/

def ARCHIMATE_RELATIONSHIPS : List String :=
  ["DECOMPOSES_TO", "REALIZES", "DEPENDS_ON", "HOSTED_ON", "IMPACTS"]

/-- `getFrameworkRelationshipPolicy` : only ArchiMate has a non-empty
allow-list; the framework is `Option String` (`none` = null/undefined). -/
def getFrameworkRelationshipPolicy (referenceFramework : Option String) : List String :=
  if referenceFramework = some "ArchiMate" then ARCHIMATE_RELATIONSHIPS else []

/-- `isRelationshipTypeAllowedForReferenceFramework` : blank type is always
rejected; an empty allow-list means no additional restriction. -/
def isRelationshipTypeAllowedForReferenceFramework (referenceFramework : Option String)
    (relationshipType : String) : Bool :=
  let t := jsTrim relationshipType
  if t = "" then false
  else
    let policy := getFrameworkRelationshipPolicy referenceFramework
    if policy.length = 0 then true
    else policy.contains t

/-! ## Graph repository (`eaRepository`)

`EaRepository.objects` is a `Map` keyed by object id; it is embedded as the
insertion-ordered entry list with unique ids (`Map.set` on a fresh key
appends, on an existing key replaces in place). Attribute bags are embedded
as ordered string-keyed maps with string values. -/

abbrev AttrMap := List (String × String)

/-- JS object spread `\x7b...a, ...b\x7d` on attribute bags: entries of `a`
in order, values overridden by `b`, new keys of `b` appended in order. -/
def attrSet (m : AttrMap) (k v : String) : AttrMap :=
  if m.any (fun p => p.1 = k) then m.map (fun p => if p.1 = k then (k, v) else p)
  else m ++ [(k, v)]

def mergeAttrs (a b : AttrMap) : AttrMap :=
  b.foldl (fun acc p => attrSet acc p.1 p.2) a

structure EaObject where
  id : String
  type : ObjectType
  attributes : AttrMap
deriving DecidableEq, Repr

structure EaRelationship where
  fromId : String
  toId : String
  type : RelationshipType
  attributes : AttrMap
deriving DecidableEq, Repr

structure EaRepository where
  objects : List EaObject
  relationships : List EaRelationship
deriving DecidableEq, Repr

def emptyEaRepository : EaRepository := { objects := [], relationships := [] }

/-- `this.objects.has(id)`. -/
def objectsHas (repo : EaRepository) (id : String) : Bool :=
  repo.objects.any (fun o => o.id = id)

/-- `this.objects.get(id)`. -/
def objectsGet (repo : EaRepository) (id : String) : Option EaObject :=
  repo.objects.find? (fun o => o.id = id)

/-- Untyped inputs: `type` arrives as an arbitrary string (`unknown`). -/
structure ObjectInput where
  id : String
  type : String
  attributes : AttrMap
deriving DecidableEq, Repr

structure RelationshipInput where
  fromId : String
  toId : String
  type : String
  attributes : AttrMap
deriving DecidableEq, Repr

/-- `{ ok: true } | { ok: false, error }`. -/
abbrev AddResult := Except String Unit

def resultIsOk : AddResult → Bool
  | .ok _ => true
  | .error _ => false

instance {ε α : Type} [DecidableEq ε] [DecidableEq α] : DecidableEq (Except ε α) :=
  fun a b =>
  match a, b with
  | .ok x, .ok y => if h : x = y then isTrue (by rw [h]) else isFalse (by simp [h])
  | .ok _, .error _ => isFalse (by simp)
  | .error _, .ok _ => isFalse (by simp)
  | .error e₁, .error e₂ =>
    if h : e₁ = e₂ then isTrue (by rw [h]) else isFalse (by simp [h])

/-- `EaRepository.clone()` : a value copy of objects (fresh attribute maps
with the same entries) and relationships. -/
def EaRepository.clone (repo : EaRepository) : EaRepository :=
  { objects := repo.objects.map (fun o => { o with attributes := o.attributes }),
    relationships := repo.relationships.map (fun r => { r with attributes := r.attributes }) }

/-- `EaRepository.addObject`. -/
def addObject (repo : EaRepository) (object : ObjectInput) : AddResult × EaRepository :=
  let id := jsTrim object.id
  if id = "" then (.error "Object id is required.", repo)
  else
    match parseObjectType object.type with
    | none => (.error ("Invalid object type \"" ++ object.type ++ "\"."), repo)
    | some t =>
      if objectsHas repo id then
        (.error ("Duplicate object id \"" ++ id ++ "\"."), repo)
      else
        (.ok (), { repo with
          objects := repo.objects ++ [{ id := id, type := t, attributes := object.attributes }] })

/-- `EaRepository.validateReference`. -/
def validateReference (repo : EaRepository) (id : String) : AddResult :=
  let key := jsTrim id
  if key = "" then .error "Reference id is required."
  else if objectsHas repo key then .ok ()
  else .error ("Unknown object id \"" ++ key ++ "\".")

/-- `EaRepository.addRelationship`. The source's second lookup of the
relationship-type definition can never miss (`isValidRelationshipType`
already succeeded), so the `(no definition)` branch has no counterpart:
`RELATIONSHIP_TYPE_DEFINITIONS` is total on the parsed type. -/
def addRelationship (repo : EaRepository) (rel : RelationshipInput) : AddResult × EaRepository :=
  let fromId := jsTrim rel.fromId
  let toId := jsTrim rel.toId
  if fromId = "" then (.error "Relationship fromId is required.", repo)
  else if toId = "" then (.error "Relationship toId is required.", repo)
  else
    match parseRelationshipType rel.type with
    | none => (.error ("Invalid relationship type \"" ++ rel.type ++ "\"."), repo)
    | some rt =>
      match validateReference repo fromId with
      | .error e => (.error e, repo)
      | .ok _ =>
        match validateReference repo toId with
        | .error e => (.error e, repo)
        | .ok _ =>
          let relationshipTypeDef := RELATIONSHIP_TYPE_DEFINITIONS rt
          match objectsGet repo fromId with
          | none => (.error ("Unknown object id \"" ++ fromId ++ "\"."), repo)
          | some fromObj =>
            match objectsGet repo toId with
            | none => (.error ("Unknown object id \"" ++ toId ++ "\"."), repo)
            | some toObj =>
              if !relationshipTypeDef.fromTypes.contains fromObj.type
                  || !relationshipTypeDef.toTypes.contains toObj.type then
                (.error ("Invalid endpoints for relationship type \"" ++ rel.type
                  ++ "\" (\"" ++ objectTypeName fromObj.type ++ "\" -> \""
                  ++ objectTypeName toObj.type ++ "\")."), repo)
              else
                (.ok (), { repo with relationships := repo.relationships
                  ++ [{ fromId := fromId, toId := toId, type := rt, attributes := rel.attributes }] })

inductive UpdateMode
  | merge
  | replace
deriving DecidableEq, Repr

/-- `EaRepository.updateObjectAttributes`. -/
def updateObjectAttributes (repo : EaRepository) (id : String) (patch : AttrMap)
    (mode : UpdateMode) : AddResult × EaRepository :=
  let key := jsTrim id
  if key = "" then (.error "Object id is required.", repo)
  else
    match objectsGet repo key with
    | none => (.error ("Unknown object id \"" ++ key ++ "\"."), repo)
    | some existing =>
      let nextAttributes :=
        match mode with
        | .replace => patch
        | .merge => mergeAttrs existing.attributes patch
      let nextObjects :=
        repo.objects.map
          (fun o => if o.id = key then { existing with attributes := nextAttributes } else o)
      (.ok (), { repo with objects := nextObjects })

/-- Substring occurrence over character lists (JS `includes`). -/
def charsHavePrefix : List Char → List Char → Bool
  | [], _ => true
  | _ :: _, [] => false
  | p :: ps, c :: cs => p = c && charsHavePrefix ps cs

def charsContain (s pat : List Char) : Bool :=
  match s with
  | [] => pat.isEmpty
  | _ :: cs => charsHavePrefix pat s || charsContain cs pat

def strContains (s pat : String) : Bool := charsContain s.data pat.data

/-- Two-object fixture for the endpoint-triple enumeration: `"a"` of the
candidate from-type and `"b"` of the candidate to-type. -/
def tripleTestRepo (ft tt : ObjectType) : EaRepository :=
  { objects := [{ id := "a", type := ft, attributes := [] },
                { id := "b", type := tt, attributes := [] }],
    relationships := [] }

def tripleTestInput (rt : RelationshipType) : RelationshipInput :=
  { fromId := "a", toId := "b", type := relationshipTypeName rt, attributes := [] }

/-! ## Strict-governance save gate (`EaRepositoryProvider` persistence effect)

The persistence effect computes the governance-debt summary for the
committed repository and, in Strict mode, decides whether the snapshot may
reach storage. The step below is the Strict branch of that effect as a
function of the computed debt counts: state is the `lastSaveBlockedKey`
ref plus whether the blocking dialog is open; output records whether
`localStorage.setItem` was reached, whether a blocking dialog was raised,
and whether the `Governance compliant: saving re-enabled.` success message
was emitted. -/

structure DebtSummary where
  mandatoryFindingCount : Nat
  relationshipErrorCount : Nat
  relationshipWarningCount : Nat
  invalidRelationshipInsertCount : Nat
  lifecycleTagMissingCount : Nat
deriving DecidableEq, Repr

/-- The dedup signature `m|i|r|w|l` composed from the five counts. -/
def debtKey (d : DebtSummary) : String :=
  toString d.mandatoryFindingCount ++ "|" ++ toString d.invalidRelationshipInsertCount
    ++ "|" ++ toString d.relationshipErrorCount ++ "|" ++ toString d.relationshipWarningCount
    ++ "|" ++ toString d.lifecycleTagMissingCount

/-- The four blocking counts (warnings never block). -/
def debtSum (d : DebtSummary) : Nat :=
  d.mandatoryFindingCount + d.relationshipErrorCount
    + d.invalidRelationshipInsertCount + d.lifecycleTagMissingCount

/-- The `blocked` condition of the Strict branch. -/
def blockedStrict (d : DebtSummary) : Bool :=
  decide (0 < d.mandatoryFindingCount) || decide (0 < d.relationshipErrorCount)
    || decide (0 < d.invalidRelationshipInsertCount)
    || decide (0 < d.lifecycleTagMissingCount)

structure GovState where
  lastSaveBlockedKey : Option String
  modalOpen : Bool
deriving DecidableEq, Repr

structure GovOutput where
  persisted : Bool
  dialogRaised : Bool
  successEmitted : Bool
deriving DecidableEq, Repr

/-- One Strict-mode governance evaluation of the persistence effect. -/
def governanceStrictStep (st : GovState) (d : DebtSummary) : GovState × GovOutput :=
  let key := debtKey d
  if blockedStrict d then
    if st.lastSaveBlockedKey ≠ some key then
      ({ lastSaveBlockedKey := some key, modalOpen := true },
       { persisted := false, dialogRaised := true, successEmitted := false })
    else
      (st, { persisted := false, dialogRaised := false, successEmitted := false })
  else
    if st.lastSaveBlockedKey.isSome then
      ({ lastSaveBlockedKey := none, modalOpen := false },
       { persisted := true, dialogRaised := false, successEmitted := true })
    else
      (st, { persisted := true, dialogRaised := false, successEmitted := false })

/-! ## Undo/redo history (`EaRepositoryProvider`)

Snapshots are the serialized repository strings. `commitStep` is the
history-tracking block of the persistence effect, run with the fresh
serialization `next` of the committed state; `undoStep` / `redoStep` are
the `undo` / `redo` callbacks. `applySerialized` re-parses a string that
was produced by `serializeRepository`, which always succeeds, and sets the
suppress flag so the induced effect re-run does not record history. -/

def HISTORY_LIMIT : Nat := 50

structure HistState where
  undoStack : List String
  redoStack : List String
  lastSerialized : Option String
  suppressHistory : Bool
deriving DecidableEq, Repr

def commitStep (st : HistState) (next : String) : HistState :=
  let st1 :=
    if st.suppressHistory = false then
      match st.lastSerialized with
      | some prev =>
        if prev ≠ next then
          let u := st.undoStack ++ [prev]
          let u2 := if u.length > HISTORY_LIMIT then u.tail else u
          { st with undoStack := u2, redoStack := [] }
        else st
      | none => st
    else st
  { st1 with suppressHistory := false, lastSerialized := some next }

def undoStep (st : HistState) : HistState × Option String :=
  match st.undoStack.getLast? with
  | none => (st, none)
  | some prevRaw =>
    let undoStack := st.undoStack.dropLast
    let redoStack :=
      match st.lastSerialized with
      | some cur =>
        let r := cur :: st.redoStack
        if r.length > HISTORY_LIMIT then r.dropLast else r
      | none => st.redoStack
    ({ undoStack := undoStack, redoStack := redoStack,
       lastSerialized := some prevRaw, suppressHistory := true }, some prevRaw)

def redoStep (st : HistState) : HistState × Option String :=
  match st.redoStack.head? with
  | none => (st, none)
  | some nextRaw =>
    let redoStack := st.redoStack.tail
    let undoStack :=
      match st.lastSerialized with
      | some cur =>
        let u := st.undoStack ++ [cur]
        if u.length > HISTORY_LIMIT then u.tail else u
      | none => st.undoStack
    ({ undoStack := undoStack, redoStack := redoStack,
       lastSerialized := some nextRaw, suppressHistory := true }, some nextRaw)

/-- Fresh history root followed by an initial serialization and three
mutation commits `s1`, `s2`, `s3`. -/
def histScenario (s0 s1 s2 s3 : String) : HistState :=
  commitStep (commitStep (commitStep (commitStep ⟨[], [], none, false⟩ s0) s1) s2) s3

/-! ## View repository (`ViewRepository`)

`createView` / `deleteViewById` over the per-project view store. The two
`Map`s are embedded as insertion-ordered association lists with unique
keys (`Map.set` on a fresh key appends; `Map.delete` removes the single
entry with the key, embedded as `eraseP` on the first match). Error
strings are produced by an error code (`CreateErr`) plus a renderer
(`renderCreateErr`) that yields exactly the source's message text. A view
payload's forbidden embedded-graph keys (extra own-properties with
non-null values, invisible to the nominal `ViewDefinition` type) are
carried in the `embedded` field. -/

inductive ViewType
  | ApplicationDependency
  | CapabilityMap
  | ApplicationLandscape
  | TechnologyLandscape
  | ImpactView
deriving DecidableEq, Repr, Fintype

def viewTypeName : ViewType → String
  | .ApplicationDependency => "ApplicationDependency"
  | .CapabilityMap => "CapabilityMap"
  | .ApplicationLandscape => "ApplicationLandscape"
  | .TechnologyLandscape => "TechnologyLandscape"
  | .ImpactView => "ImpactView"

/-- `VIEW_TYPES` in source order. -/
def allViewTypes : List ViewType :=
  [.ApplicationDependency, .CapabilityMap, .ApplicationLandscape,
   .TechnologyLandscape, .ImpactView]

/-- `isValidViewType`, refined to return the parsed member. -/
def parseViewType (s : String) : Option ViewType :=
  allViewTypes.find? (fun t => viewTypeName t = s)

structure ViewTypeRule where
  allowedElementTypes : List String
  allowedRelationshipTypes : List String
deriving DecidableEq, Repr

/-- `viewTypeRules` : the static per-view-type allow lists. -/
def viewTypeRules : ViewType → ViewTypeRule
  | .CapabilityMap =>
      { allowedElementTypes := ["Capability", "BusinessService", "ApplicationService", "Application"],
        allowedRelationshipTypes := ["DECOMPOSES_TO", "REALIZED_BY", "SUPPORTS", "SUPPORTED_BY"] }
  | .ApplicationDependency =>
      { allowedElementTypes := ["Application"], allowedRelationshipTypes := ["DEPENDS_ON"] }
  | .ApplicationLandscape =>
      { allowedElementTypes := ["Application"], allowedRelationshipTypes := [] }
  | .TechnologyLandscape =>
      { allowedElementTypes := ["Technology"], allowedRelationshipTypes := [] }
  | .ImpactView =>
      { allowedElementTypes := ["Programme", "Capability"],
        allowedRelationshipTypes := ["IMPACTS"] }

def FORBIDDEN_EMBEDDED_KEYS : List String :=
  ["elements", "relationships", "objects", "nodes", "edges", "positions",
   "nodePositions", "layout", "graph", "repository", "catalog", "render", "cytoscape"]

structure ViewDefinition where
  id : String
  name : String
  viewType : String
  allowedElementTypes : List String
  allowedRelationshipTypes : List String
  /-- Forbidden embedded-payload keys present on the raw payload with
  non-null values. -/
  embedded : List String
deriving DecidableEq, Repr

/-- `hasEmbeddedPayload` : the first forbidden key present, if any. -/
def hasEmbeddedPayload (view : ViewDefinition) : Option String :=
  FORBIDDEN_EMBEDDED_KEYS.find? (fun k => view.embedded.contains k)

/-- `normalizeName` : trim then lower-case. -/
def normalizeName (value : String) : String := jsToLower (jsTrim value)

/-- First-occurrence deduplication (`Array.from(new Set(...))`). -/
def dedupFirst (l : List String) : List String :=
  l.foldl (fun acc x => if acc.contains x then acc else acc ++ [x]) []

/-- `normalizeList` : trim entries, drop blanks, deduplicate. -/
def normalizeList (values : List String) : List String :=
  dedupFirst ((values.map jsTrim).filter (fun v => 0 < v.length))

/-- `hasAny` : does the set contain one of the candidates? -/
def hasAny (set : List String) (candidates : List String) : Bool :=
  candidates.any (fun c => set.contains c)

/-- JS `array.join(sep)`. -/
def jsJoin (sep : String) : List String → String
  | [] => ""
  | x :: xs => xs.foldl (fun acc v => acc ++ sep ++ v) x

inductive CreateErr
  | embeddedPayload (key : String)
  | idRequired
  | duplicateId (id : String)
  | nameRequired
  | duplicateName (name : String)
  | invalidViewType (viewType : String)
  | emptyElementTypes
  | elementTypeNotAllowed (t viewType : String)
  | relationshipTypeNotAllowed (t viewType : String)
  | unknownRelationshipSemantics (t : String)
  | endpointNotCovered (t : String) (epFrom epTo elems : List String)
deriving DecidableEq, Repr

/-- The exact `createView` rejection strings of the source. -/
def renderCreateErr : CreateErr → String
  | .embeddedPayload k =>
      "Rejected createView: view definitions must not embed payloads (forbidden key \"" ++ k ++ "\")."
  | .idRequired => "Rejected createView: id is required."
  | .duplicateId id => "Rejected createView: duplicate id \"" ++ id ++ "\"."
  | .nameRequired => "Rejected createView: name is required."
  | .duplicateName name =>
      "Rejected createView: duplicate view name \"" ++ name ++ "\" for project."
  | .invalidViewType vt => "Rejected createView: invalid viewType \"" ++ vt ++ "\"."
  | .emptyElementTypes => "Rejected createView: allowedElementTypes must be non-empty."
  | .elementTypeNotAllowed t vt =>
      "Rejected createView: elementType \"" ++ t ++ "\" is not allowed for viewType \"" ++ vt ++ "\"."
  | .relationshipTypeNotAllowed t vt =>
      "Rejected createView: relationshipType \"" ++ t ++ "\" is not allowed for viewType \"" ++ vt ++ "\"."
  | .unknownRelationshipSemantics t =>
      "Rejected createView: unknown relationshipType \"" ++ t ++ "\" (no endpoint semantics defined)."
  | .endpointNotCovered t froms tos elems =>
      "Rejected createView: relationshipType \"" ++ t ++ "\" requires endpoint types ("
        ++ jsJoin " | " froms ++ " -> " ++ jsJoin " | " tos ++ "), but allowedElementTypes=["
        ++ jsJoin ", " elems ++ "]."

structure ViewRepoState where
  byId : List (String × ViewDefinition)
  idByNormalizedName : List (String × String)
deriving DecidableEq, Repr

def emptyViewRepoState : ViewRepoState := { byId := [], idByNormalizedName := [] }

def alookup {α : Type} (k : String) : List (String × α) → Option α
  | [] => none
  | p :: ps => if p.1 = k then some p.2 else alookup k ps

/-- The per-relationship-type endpoint-coverage loop of `createView`: for
each allowed relationship type the allowed-element-type set must contain at
least one valid from-type AND one valid to-type of the canonical rule. -/
def checkEndpointCoverage (elems : List String) : List String → Option CreateErr
  | [] => none
  | t :: ts =>
    match getRelationshipEndpointRule t with
    | none => some (.unknownRelationshipSemantics t)
    | some ep =>
      if !hasAny elems ep.ruleFrom || !hasAny elems ep.ruleTo then
        some (.endpointNotCovered t ep.ruleFrom ep.ruleTo elems)
      else checkEndpointCoverage elems ts

/-- The normalized copy stored on success. -/
def storedView (view : ViewDefinition) : ViewDefinition :=
  { view with
    name := jsTrim view.name,
    allowedElementTypes := normalizeList view.allowedElementTypes,
    allowedRelationshipTypes := normalizeList view.allowedRelationshipTypes }

/-- `ViewRepository.createView`. -/
def createView (st : ViewRepoState) (view : ViewDefinition) :
    Except CreateErr ViewDefinition × ViewRepoState :=
  match hasEmbeddedPayload view with
  | some key => (.error (.embeddedPayload key), st)
  | none =>
    let id := jsTrim view.id
    if id = "" then (.error .idRequired, st)
    else if (alookup id st.byId).isSome then (.error (.duplicateId id), st)
    else
      let name := jsTrim view.name
      if name = "" then (.error .nameRequired, st)
      else
        let normalizedName := normalizeName name
        if (alookup normalizedName st.idByNormalizedName).isSome then
          (.error (.duplicateName name), st)
        else
          match parseViewType view.viewType with
          | none => (.error (.invalidViewType view.viewType), st)
          | some vt =>
            let normalizedElementTypes := normalizeList view.allowedElementTypes
            let normalizedRelationshipTypes := normalizeList view.allowedRelationshipTypes
            if normalizedElementTypes.length = 0 then (.error .emptyElementTypes, st)
            else
              let rule := viewTypeRules vt
              match normalizedElementTypes.find?
                  (fun t => !rule.allowedElementTypes.contains t) with
              | some t => (.error (.elementTypeNotAllowed t view.viewType), st)
              | none =>
                match normalizedRelationshipTypes.find?
                    (fun t => !rule.allowedRelationshipTypes.contains t) with
                | some t => (.error (.relationshipTypeNotAllowed t view.viewType), st)
                | none =>
                  match checkEndpointCoverage normalizedElementTypes
                      normalizedRelationshipTypes with
                  | some e => (.error e, st)
                  | none =>
                    (.ok (storedView view),
                     { byId := st.byId ++ [(id, storedView view)],
                       idByNormalizedName :=
                         st.idByNormalizedName ++ [(normalizedName, id)] })

/-- `ViewRepository.deleteViewById`. -/
def deleteViewById (st : ViewRepoState) (id : String) :
    Except String ViewDefinition × ViewRepoState :=
  let key := jsTrim id
  if key = "" then (.error "Rejected deleteViewById: id is required.", st)
  else
    match alookup key st.byId with
    | none => (.error ("Rejected deleteViewById: no such view \"" ++ key ++ "\"."), st)
    | some existing =>
      (.ok existing,
       { byId := st.byId.eraseP (fun p => p.1 = key),
         idByNormalizedName :=
           st.idByNormalizedName.eraseP (fun p => p.1 = normalizeName existing.name) })

/-- C10 invariant: the case-insensitive name index holds exactly one entry
per stored view, mapping the normalized stored name to the view's id, and
ids as well as normalized names are pairwise distinct. -/
def viewNameIndexConsistent (st : ViewRepoState) : Prop :=
  st.idByNormalizedName = st.byId.map (fun p => (normalizeName p.2.name, p.1))
  ∧ (st.byId.map Prod.fst).Nodup
  ∧ (st.byId.map (fun p => normalizeName p.2.name)).Nodup

instance (st : ViewRepoState) : Decidable (viewNameIndexConsistent st) := by
  unfold viewNameIndexConsistent
  infer_instance

/-! ## Heap-level model of `clone()`

`clone()` copies every object and relationship with a fresh attribute map
(`\x7b...obj, attributes: \x7b...obj.attributes\x7d\x7d`). To state that no
attribute map is shared between the clone and the original, attribute maps
are placed in an explicit heap (`AttrHeap`, addresses are indices) and the
clone loop is modelled as allocation of a fresh cell per source map, in
iteration order: objects first, then relationships. -/

abbrev AttrHeap := List AttrMap

def heapRead (h : AttrHeap) (r : Nat) : AttrMap := h.getD r []

structure HEaObject where
  id : String
  type : ObjectType
  attrRef : Nat
deriving DecidableEq, Repr

structure HEaRelationship where
  fromId : String
  toId : String
  type : RelationshipType
  attrRef : Nat
deriving DecidableEq, Repr

structure HEaRepository where
  objects : List HEaObject
  relationships : List HEaRelationship
deriving DecidableEq, Repr

def cloneObjectsH : List HEaObject → AttrHeap → List HEaObject × AttrHeap
  | [], h => ([], h)
  | o :: os, h =>
    let r := h.length
    let h1 := h ++ [heapRead h o.attrRef]
    let res := cloneObjectsH os h1
    ({ o with attrRef := r } :: res.1, res.2)

def cloneRelationshipsH : List HEaRelationship → AttrHeap → List HEaRelationship × AttrHeap
  | [], h => ([], h)
  | r :: rs, h =>
    let a := h.length
    let h1 := h ++ [heapRead h r.attrRef]
    let res := cloneRelationshipsH rs h1
    ({ r with attrRef := a } :: res.1, res.2)

/-- `clone()` over the heap model. -/
def cloneH (repo : HEaRepository) (h : AttrHeap) : HEaRepository × AttrHeap :=
  let objRes := cloneObjectsH repo.objects h
  let relRes := cloneRelationshipsH repo.relationships objRes.2
  ({ objects := objRes.1, relationships := relRes.1 }, relRes.2)

/-! ## Helper lemmas for the repository operations -/

theorem jsTrimChars_eq_rdrop (l : List Char) :
    jsTrimChars l = List.rdropWhile jsIsWhitespace (List.dropWhile jsIsWhitespace l) := by
  simp [jsTrimChars, List.rdropWhile]

theorem jsTrimChars_idem (l : List Char) : jsTrimChars (jsTrimChars l) = jsTrimChars l := by
  rw [jsTrimChars_eq_rdrop, jsTrimChars_eq_rdrop]
  have hstep :
      List.dropWhile jsIsWhitespace
          (List.rdropWhile jsIsWhitespace (List.dropWhile jsIsWhitespace l))
        = List.rdropWhile jsIsWhitespace (List.dropWhile jsIsWhitespace l) := by
    cases hB : List.rdropWhile jsIsWhitespace (List.dropWhile jsIsWhitespace l) with
    | nil => simp
    | cons b bs =>
      obtain ⟨t, ht⟩ := List.rdropWhile_prefix jsIsWhitespace (List.dropWhile jsIsWhitespace l)
      rw [hB, List.cons_append] at ht
      have hAeq : List.dropWhile jsIsWhitespace (List.dropWhile jsIsWhitespace l)
          = List.dropWhile jsIsWhitespace l := List.dropWhile_idempotent _ _
      by_cases hpb : jsIsWhitespace b = true
      · exfalso
        rw [← ht, List.dropWhile_cons, if_pos hpb] at hAeq
        have hle := (List.dropWhile_suffix (l := bs ++ t) jsIsWhitespace).length_le
        rw [hAeq] at hle
        simp at hle
      · simp [List.dropWhile_cons, hpb]
  rw [hstep, List.rdropWhile_idempotent]

theorem jsTrim_idem (s : String) : jsTrim (jsTrim s) = jsTrim s := by
  simp [jsTrim, jsTrimChars_idem]

theorem objectsGet_has_true {repo : EaRepository} {k : String} {o : EaObject}
    (h : objectsGet repo k = some o) : objectsHas repo k = true := by
  unfold objectsGet at h
  have hmem : o ∈ repo.objects := List.mem_of_find?_eq_some h
  have hpred := List.find?_some h
  exact List.any_eq_true.mpr ⟨o, hmem, hpred⟩

theorem addRelationship_blank_from (repo : EaRepository) (rel : RelationshipInput)
    (h : jsTrim rel.fromId = "") :
    addRelationship repo rel = (.error "Relationship fromId is required.", repo) := by
  simp [addRelationship, h]

theorem addRelationship_blank_to (repo : EaRepository) (rel : RelationshipInput)
    (h1 : jsTrim rel.fromId ≠ "") (h2 : jsTrim rel.toId = "") :
    addRelationship repo rel = (.error "Relationship toId is required.", repo) := by
  simp [addRelationship, h1, h2]

theorem addRelationship_invalid_type (repo : EaRepository) (rel : RelationshipInput)
    (h1 : jsTrim rel.fromId ≠ "") (h2 : jsTrim rel.toId ≠ "")
    (hp : parseRelationshipType rel.type = none) :
    addRelationship repo rel
      = (.error ("Invalid relationship type \"" ++ rel.type ++ "\"."), repo) := by
  simp [addRelationship, h1, h2, hp]

theorem addRelationship_unknown_from (repo : EaRepository) (rel : RelationshipInput)
    (rt : RelationshipType)
    (h1 : jsTrim rel.fromId ≠ "") (h2 : jsTrim rel.toId ≠ "")
    (hp : parseRelationshipType rel.type = some rt)
    (hhf : objectsHas repo (jsTrim rel.fromId) = false) :
    addRelationship repo rel
      = (.error ("Unknown object id \"" ++ jsTrim rel.fromId ++ "\"."), repo) := by
  simp [addRelationship, validateReference, jsTrim_idem, h1, h2, hp, hhf]

theorem addRelationship_unknown_to (repo : EaRepository) (rel : RelationshipInput)
    (rt : RelationshipType)
    (h1 : jsTrim rel.fromId ≠ "") (h2 : jsTrim rel.toId ≠ "")
    (hp : parseRelationshipType rel.type = some rt)
    (hhf : objectsHas repo (jsTrim rel.fromId) = true)
    (hht : objectsHas repo (jsTrim rel.toId) = false) :
    addRelationship repo rel
      = (.error ("Unknown object id \"" ++ jsTrim rel.toId ++ "\"."), repo) := by
  simp [addRelationship, validateReference, jsTrim_idem, h1, h2, hp, hhf, hht]

theorem addRelationship_invalid_endpoints (repo : EaRepository) (rel : RelationshipInput)
    (rt : RelationshipType) (fromObj toObj : EaObject)
    (h1 : jsTrim rel.fromId ≠ "") (h2 : jsTrim rel.toId ≠ "")
    (hp : parseRelationshipType rel.type = some rt)
    (hf : objectsGet repo (jsTrim rel.fromId) = some fromObj)
    (ht : objectsGet repo (jsTrim rel.toId) = some toObj)
    (hc : ((RELATIONSHIP_TYPE_DEFINITIONS rt).fromTypes.contains fromObj.type
          && (RELATIONSHIP_TYPE_DEFINITIONS rt).toTypes.contains toObj.type) = false) :
    addRelationship repo rel
      = (.error ("Invalid endpoints for relationship type \"" ++ rel.type
          ++ "\" (\"" ++ objectTypeName fromObj.type ++ "\" -> \""
          ++ objectTypeName toObj.type ++ "\")."), repo) := by
  have hhf := objectsGet_has_true hf
  have hht := objectsGet_has_true ht
  rcases Bool.and_eq_false_iff.mp hc with hcf | hcf
  · have hnm : fromObj.type ∉ (RELATIONSHIP_TYPE_DEFINITIONS rt).fromTypes := by
      simpa using hcf
    simp [addRelationship, validateReference, jsTrim_idem, h1, h2, hp, hhf, hht, hf, ht, hnm]
  · have hnm : toObj.type ∉ (RELATIONSHIP_TYPE_DEFINITIONS rt).toTypes := by
      simpa using hcf
    simp [addRelationship, validateReference, jsTrim_idem, h1, h2, hp, hhf, hht, hf, ht, hnm]

theorem addRelationship_ok (repo : EaRepository) (rel : RelationshipInput)
    (rt : RelationshipType) (fromObj toObj : EaObject)
    (h1 : jsTrim rel.fromId ≠ "") (h2 : jsTrim rel.toId ≠ "")
    (hp : parseRelationshipType rel.type = some rt)
    (hf : objectsGet repo (jsTrim rel.fromId) = some fromObj)
    (ht : objectsGet repo (jsTrim rel.toId) = some toObj)
    (hc : ((RELATIONSHIP_TYPE_DEFINITIONS rt).fromTypes.contains fromObj.type
          && (RELATIONSHIP_TYPE_DEFINITIONS rt).toTypes.contains toObj.type) = true) :
    addRelationship repo rel
      = (.ok (), { repo with relationships := repo.relationships
          ++ [{ fromId := jsTrim rel.fromId, toId := jsTrim rel.toId,
                type := rt, attributes := rel.attributes }] }) := by
  have hhf := objectsGet_has_true hf
  have hht := objectsGet_has_true ht
  simp only [Bool.and_eq_true] at hc
  obtain ⟨hcf, hct⟩ := hc
  have hmf : fromObj.type ∈ (RELATIONSHIP_TYPE_DEFINITIONS rt).fromTypes := by simpa using hcf
  have hmt : toObj.type ∈ (RELATIONSHIP_TYPE_DEFINITIONS rt).toTypes := by simpa using hct
  simp [addRelationship, validateReference, jsTrim_idem, h1, h2, hp, hhf, hht, hf, ht, hmf, hmt]

theorem addObject_fail_frame (repo : EaRepository) (object : ObjectInput) :
    (addObject repo object).2 = repo ∨ (addObject repo object).1 = .ok () := by
  unfold addObject
  dsimp only
  repeat' split
  all_goals simp

theorem addRelationship_fail_frame (repo : EaRepository) (rel : RelationshipInput) :
    (addRelationship repo rel).2 = repo ∨ (addRelationship repo rel).1 = .ok () := by
  unfold addRelationship
  dsimp only
  repeat' split
  all_goals simp

theorem updateObjectAttributes_fail_frame (repo : EaRepository) (id : String)
    (patch : AttrMap) (mode : UpdateMode) :
    (updateObjectAttributes repo id patch mode).2 = repo
      ∨ (updateObjectAttributes repo id patch mode).1 = .ok () := by
  unfold updateObjectAttributes
  dsimp only
  repeat' split
  all_goals simp

/-! ## Helper lemmas for the clone heap model -/

theorem heapRead_append_of_lt (h ext : AttrHeap) (r : Nat) (hr : r < h.length) :
    heapRead (h ++ ext) r = heapRead h r := by
  unfold heapRead
  exact List.getD_append h ext [] r hr

theorem heapRead_append_self (h : AttrHeap) (c : AttrMap) :
    heapRead (h ++ [c]) h.length = c := by
  unfold heapRead
  rw [List.getD_append_right h [c] [] h.length (le_refl h.length)]
  simp

theorem forall2_weaken {α β : Type} {R S : α → β → Prop} :
    ∀ {l : List α} {l' : List β}, List.Forall₂ R l l' →
      (∀ a b, a ∈ l → b ∈ l' → R a b → S a b) → List.Forall₂ S l l' := by
  intro l l' hf
  induction hf with
  | nil => intro; exact .nil
  | cons hab htail ih =>
    intro hw
    exact .cons (hw _ _ (List.mem_cons_self _ _) (List.mem_cons_self _ _) hab)
      (ih (fun a b ha hb hr => hw a b (List.mem_cons_of_mem _ ha) (List.mem_cons_of_mem _ hb) hr))

theorem cloneObjectsH_spec :
    ∀ (os : List HEaObject) (h : AttrHeap),
      (∀ o ∈ os, o.attrRef < h.length) →
      (∃ ext, (cloneObjectsH os h).2 = h ++ ext)
      ∧ (∀ o' ∈ (cloneObjectsH os h).1,
          h.length ≤ o'.attrRef ∧ o'.attrRef < (cloneObjectsH os h).2.length)
      ∧ List.Forall₂ (fun o o' => o'.id = o.id ∧ o'.type = o.type
          ∧ heapRead (cloneObjectsH os h).2 o'.attrRef = heapRead h o.attrRef)
          os (cloneObjectsH os h).1 := by
  intro os
  induction os with
  | nil =>
    intro h _
    exact ⟨⟨[], by simp [cloneObjectsH]⟩, by simp [cloneObjectsH], by simp [cloneObjectsH]⟩
  | cons o os ih =>
    intro h hv
    have hv1 : ∀ o2 ∈ os, o2.attrRef < (h ++ [heapRead h o.attrRef]).length := by
      intro o2 hm
      have := hv o2 (List.mem_cons_of_mem _ hm)
      simp only [List.length_append, List.length_cons, List.length_nil]
      omega
    obtain ⟨⟨ext1, hext⟩, hfresh, hcopy⟩ := ih (h ++ [heapRead h o.attrRef]) hv1
    simp only [cloneObjectsH]
    refine ⟨⟨heapRead h o.attrRef :: ext1, ?_⟩, ?_, ?_⟩
    · rw [hext, List.append_assoc]
      rfl
    · intro o' hmem
      rcases List.mem_cons.mp hmem with heq | hmem'
      · subst heq
        refine ⟨le_refl _, ?_⟩
        rw [hext]
        simp only [List.length_append, List.length_cons, List.length_nil]
        omega
      · obtain ⟨hge, hlt⟩ := hfresh o' hmem'
        refine ⟨le_trans ?_ hge, hlt⟩
        simp only [List.length_append, List.length_cons, List.length_nil]
        omega
    · refine List.Forall₂.cons ⟨rfl, rfl, ?_⟩ ?_
      · rw [hext, heapRead_append_of_lt _ _ _ (by simp), heapRead_append_self]
      · refine forall2_weaken hcopy ?_
        intro o2 o2' hm2 _ ⟨hid, hty, hread⟩
        refine ⟨hid, hty, ?_⟩
        rw [hread, heapRead_append_of_lt _ _ _ (hv o2 (List.mem_cons_of_mem _ hm2))]

theorem cloneRelationshipsH_spec :
    ∀ (rs : List HEaRelationship) (h : AttrHeap),
      (∀ r ∈ rs, r.attrRef < h.length) →
      (∃ ext, (cloneRelationshipsH rs h).2 = h ++ ext)
      ∧ (∀ r' ∈ (cloneRelationshipsH rs h).1,
          h.length ≤ r'.attrRef ∧ r'.attrRef < (cloneRelationshipsH rs h).2.length)
      ∧ List.Forall₂ (fun r r' => r'.fromId = r.fromId ∧ r'.toId = r.toId ∧ r'.type = r.type
          ∧ heapRead (cloneRelationshipsH rs h).2 r'.attrRef = heapRead h r.attrRef)
          rs (cloneRelationshipsH rs h).1 := by
  intro rs
  induction rs with
  | nil =>
    intro h _
    exact ⟨⟨[], by simp [cloneRelationshipsH]⟩, by simp [cloneRelationshipsH],
      by simp [cloneRelationshipsH]⟩
  | cons r rs ih =>
    intro h hv
    have hv1 : ∀ r2 ∈ rs, r2.attrRef < (h ++ [heapRead h r.attrRef]).length := by
      intro r2 hm
      have := hv r2 (List.mem_cons_of_mem _ hm)
      simp only [List.length_append, List.length_cons, List.length_nil]
      omega
    obtain ⟨⟨ext1, hext⟩, hfresh, hcopy⟩ := ih (h ++ [heapRead h r.attrRef]) hv1
    simp only [cloneRelationshipsH]
    refine ⟨⟨heapRead h r.attrRef :: ext1, ?_⟩, ?_, ?_⟩
    · rw [hext, List.append_assoc]
      rfl
    · intro r' hmem
      rcases List.mem_cons.mp hmem with heq | hmem'
      · subst heq
        refine ⟨le_refl _, ?_⟩
        rw [hext]
        simp only [List.length_append, List.length_cons, List.length_nil]
        omega
      · obtain ⟨hge, hlt⟩ := hfresh r' hmem'
        refine ⟨le_trans ?_ hge, hlt⟩
        simp only [List.length_append, List.length_cons, List.length_nil]
        omega
    · refine List.Forall₂.cons ⟨rfl, rfl, rfl, ?_⟩ ?_
      · rw [hext, heapRead_append_of_lt _ _ _ (by simp), heapRead_append_self]
      · refine forall2_weaken hcopy ?_
        intro r2 r2' hm2 _ ⟨hfi, hti, hty, hread⟩
        refine ⟨hfi, hti, hty, ?_⟩
        rw [hread, heapRead_append_of_lt _ _ _ (hv r2 (List.mem_cons_of_mem _ hm2))]

theorem clone_objects_eta (l : List EaObject) :
    l.map (fun o => { o with attributes := o.attributes }) = l := by
  induction l with
  | nil => rfl
  | cons x xs ih => simp [ih]

theorem clone_relationships_eta (l : List EaRelationship) :
    l.map (fun r => { r with attributes := r.attributes }) = l := by
  induction l with
  | nil => rfl
  | cons x xs ih => simp [ih]

theorem clone_eq (repo : EaRepository) : repo.clone = repo := by
  cases repo
  simp [EaRepository.clone, clone_objects_eta, clone_relationships_eta]

/-! ## Helper lemmas for the view repository -/

theorem alookup_eq_none_iff {α : Type} (k : String) :
    ∀ l : List (String × α), alookup k l = none ↔ k ∉ l.map Prod.fst := by
  intro l
  induction l with
  | nil => simp [alookup]
  | cons p ps ih =>
    by_cases hp : p.1 = k
    · simp [alookup, hp]
    · simp [alookup, hp, ih, Ne.symm hp]

theorem alookup_mem {α : Type} {k : String} {v : α} :
    ∀ {l : List (String × α)}, alookup k l = some v → (k, v) ∈ l := by
  intro l
  induction l with
  | nil => intro h; simp [alookup] at h
  | cons p ps ih =>
    intro h
    by_cases hp : p.1 = k
    · rw [alookup, if_pos hp] at h
      have : p = (k, v) := by
        obtain ⟨p1, p2⟩ := p
        simp_all
      rw [← this]
      exact List.mem_cons_self _ _
    · rw [alookup, if_neg hp] at h
      exact List.mem_cons_of_mem _ (ih h)

theorem alookup_unique {α : Type} {k : String} {v : α} :
    ∀ {l : List (String × α)}, (l.map Prod.fst).Nodup → alookup k l = some v →
      ∀ e ∈ l, e.1 = k → e = (k, v) := by
  intro l
  induction l with
  | nil => intro _ h; simp [alookup] at h
  | cons p ps ih =>
    intro hnd h e hmem hek
    rw [List.map_cons, List.nodup_cons] at hnd
    by_cases hp : p.1 = k
    · rw [alookup, if_pos hp] at h
      rcases List.mem_cons.mp hmem with rfl | hmem'
      · obtain ⟨p1, p2⟩ := e
        simp_all
      · exfalso
        apply hnd.1
        rw [hp, ← hek]
        exact List.mem_map_of_mem Prod.fst hmem'
    · rw [alookup, if_neg hp] at h
      rcases List.mem_cons.mp hmem with rfl | hmem'
      · exact absurd hek hp
      · exact ih hnd.2 h e hmem' hek

theorem alookup_eraseP_self {α : Type} (k : String) :
    ∀ l : List (String × α), (l.map Prod.fst).Nodup →
      alookup k (l.eraseP (fun p => p.1 = k)) = none := by
  intro l
  induction l with
  | nil => intro; rfl
  | cons p ps ih =>
    intro hnd
    rw [List.map_cons, List.nodup_cons] at hnd
    by_cases hp : p.1 = k
    · rw [List.eraseP_cons]
      have hd : decide (p.1 = k) = true := by simp [hp]
      rw [hd]
      simp only [cond_true]
      rw [alookup_eq_none_iff]
      rw [hp] at hnd
      exact hnd.1
    · rw [List.eraseP_cons]
      have hd : decide (p.1 = k) = false := by simp [hp]
      rw [hd]
      simp only [cond_false]
      rw [alookup, if_neg hp]
      exact ih hnd.2

theorem map_eraseP_comm (k1 k2 : String) :
    ∀ l : List (String × ViewDefinition),
      (∀ e ∈ l, e.1 = k1 ↔ normalizeName e.2.name = k2) →
      (l.map (fun p => (normalizeName p.2.name, p.1))).eraseP (fun q => q.1 = k2)
        = (l.eraseP (fun p => p.1 = k1)).map (fun p => (normalizeName p.2.name, p.1)) := by
  intro l
  induction l with
  | nil => intro; rfl
  | cons e es ih =>
    intro hiff
    have hhead := hiff e (List.mem_cons_self _ _)
    by_cases he : e.1 = k1
    · have hn : normalizeName e.2.name = k2 := hhead.mp he
      rw [List.map_cons, List.eraseP_cons, List.eraseP_cons]
      simp [hn, he]
    · have hn : ¬ normalizeName e.2.name = k2 := fun h => he (hhead.mpr h)
      rw [List.map_cons, List.eraseP_cons, List.eraseP_cons]
      simp [hn, he, ih (fun e' hm => hiff e' (List.mem_cons_of_mem _ hm))]

theorem nodup_append_singleton {α : Type} {l : List α} {a : α}
    (hnd : l.Nodup) (hna : a ∉ l) : (l ++ [a]).Nodup := by
  rw [List.nodup_append]
  exact ⟨hnd, List.nodup_singleton a, fun x hx hx' => by
    simp at hx'
    subst hx'
    exact hna hx⟩

theorem checkEndpointCoverage_none (elems : List String) :
    ∀ ts : List String, checkEndpointCoverage elems ts = none →
      ∀ t ∈ ts, ∀ ep, getRelationshipEndpointRule t = some ep →
        hasAny elems ep.ruleFrom = true ∧ hasAny elems ep.ruleTo = true := by
  intro ts
  induction ts with
  | nil => intro _ t hm; simp at hm
  | cons t0 ts ih =>
    intro h t hm ep hrule
    rw [checkEndpointCoverage] at h
    rcases List.mem_cons.mp hm with rfl | hm'
    · rw [hrule] at h
      dsimp only at h
      by_cases hc : (!hasAny elems ep.ruleFrom || !hasAny elems ep.ruleTo) = true
      · rw [if_pos hc] at h
        exact absurd h (by simp)
      · revert hc
        cases hasAny elems ep.ruleFrom <;> cases hasAny elems ep.ruleTo <;> simp
    · cases hr0 : getRelationshipEndpointRule t0 with
      | none =>
        rw [hr0] at h
        dsimp only at h
        exact absurd h (by simp)
      | some ep0 =>
        rw [hr0] at h
        dsimp only at h
        by_cases hc : (!hasAny elems ep0.ruleFrom || !hasAny elems ep0.ruleTo) = true
        · rw [if_pos hc] at h
          exact absurd h (by simp)
        · rw [if_neg hc] at h
          exact ih h t hm' ep hrule

theorem checkEndpointCoverage_ne_dup (elems : List String) :
    ∀ (ts : List String) (e : CreateErr), checkEndpointCoverage elems ts = some e →
      ∀ n, e ≠ .duplicateName n := by
  intro ts
  induction ts with
  | nil => intro e h; simp [checkEndpointCoverage] at h
  | cons t0 ts ih =>
    intro e h n
    rw [checkEndpointCoverage] at h
    cases hr0 : getRelationshipEndpointRule t0 with
    | none =>
      rw [hr0] at h
      dsimp only at h
      simp at h
      subst h
      simp
    | some ep0 =>
      rw [hr0] at h
      dsimp only at h
      by_cases hc : (!hasAny elems ep0.ruleFrom || !hasAny elems ep0.ruleTo) = true
      · rw [if_pos hc] at h
        simp at h
        subst h
        simp
      · rw [if_neg hc] at h
        exact ih e h n

theorem createView_cases (st : ViewRepoState) (v : ViewDefinition) :
    ((createView st v).2 = st ∧ ∀ w, (createView st v).1 ≠ .ok w)
    ∨ ((createView st v).1 = .ok (storedView v)
      ∧ (createView st v).2
          = { byId := st.byId ++ [(jsTrim v.id, storedView v)],
              idByNormalizedName := st.idByNormalizedName
                ++ [(normalizeName (jsTrim v.name), jsTrim v.id)] }
      ∧ (alookup (jsTrim v.id) st.byId).isSome = false
      ∧ (alookup (normalizeName (jsTrim v.name)) st.idByNormalizedName).isSome = false
      ∧ checkEndpointCoverage (normalizeList v.allowedElementTypes)
          (normalizeList v.allowedRelationshipTypes) = none) := by
  unfold createView
  dsimp only
  repeat' split
  all_goals
    first
      | exact Or.inl ⟨rfl, by intro w h; simp at h⟩
      | · rename_i hnocov
          refine Or.inr ⟨rfl, rfl, ?_, ?_, ?_⟩ <;> simp_all

theorem createView_dupName_requires (st : ViewRepoState) (v : ViewDefinition) (n : String) :
    (createView st v).1 = .error (.duplicateName n) →
    (alookup (normalizeName (jsTrim v.name)) st.idByNormalizedName).isSome = true := by
  unfold createView
  dsimp only
  repeat' split
  all_goals intro h
  any_goals solve | simp at h
  · assumption
  · rename_i heq0
    simp at h
    subst h
    exact absurd rfl (checkEndpointCoverage_ne_dup _ _ _ heq0 n)

/-! ## Claim theorems: metamodel tables and pure policies -/

/-- C1. The canonical endpoint-rule table and the full relationship-type
definition table are NOT mutually consistent: exactly the five relationship
types DECOMPOSES_TO, REALIZED_BY, SUPPORTED_BY, IMPACTS and DELIVERS have a
canonical `from`/`to` list that differs (as a set of object types) from the
definition's `fromTypes`/`toTypes`; the remaining eight agree. The spec
declares this mutual consistency an invariant whose violation is a
correctness bug, so the divergence is a defect of the code. -/
theorem endpoint_tables_divergence :
    allRelationshipTypes.filter (fun t => !endpointTablesConsistentAt t)
      = [.DECOMPOSES_TO, .REALIZED_BY, .SUPPORTED_BY, .IMPACTS, .DELIVERS]
    ∧ endpointTablesConsistentAt .DECOMPOSES_TO = false
    ∧ (RELATIONSHIP_TYPE_DEFINITIONS .DECOMPOSES_TO).fromTypes.map objectTypeName
        = ["CapabilityCategory", "Capability", "SubCapability"]
    ∧ getRelationshipEndpointRule "DECOMPOSES_TO"
        = some { ruleFrom := ["Capability"], ruleTo := ["Capability"] } := by
  refine ⟨by decide, by decide, by decide, by decide⟩

/-- C2 (counterexample to the message clause). The invalid-endpoints
rejection message contains the observed endpoint types but NOT the allowed
types: inserting REALIZED_BY between two Application objects yields exactly
`Invalid endpoints for relationship type "REALIZED_BY" ("Application" ->
"Application").`, which mentions the observed type Application but none of
the allowed endpoint types Capability / SubCapability / BusinessService. -/
theorem addRelationship_message_observed_only :
    (addRelationship (tripleTestRepo .Application .Application)
        (tripleTestInput .REALIZED_BY)).1
      = .error "Invalid endpoints for relationship type \"REALIZED_BY\" (\"Application\" -> \"Application\")."
    ∧ strContains "Invalid endpoints for relationship type \"REALIZED_BY\" (\"Application\" -> \"Application\")." "Application" = true
    ∧ strContains "Invalid endpoints for relationship type \"REALIZED_BY\" (\"Application\" -> \"Application\")." "Capability" = false
    ∧ strContains "Invalid endpoints for relationship type \"REALIZED_BY\" (\"Application\" -> \"Application\")." "BusinessService" = false
    ∧ RELATIONSHIP_TYPE_DEFINITIONS .REALIZED_BY
        = { fromTypes := [.Capability, .SubCapability], toTypes := [.BusinessService] } := by
  refine ⟨by decide, by decide, by decide, by decide, by decide⟩

/-- C2 (amended). `addRelationship` validates in this order — blank fromId,
blank toId, unknown relationship type, unresolved from-endpoint, unresolved
to-endpoint, endpoint types not contained in the definition's
fromTypes/toTypes (error message naming the relationship type and the
observed endpoint types) — and otherwise appends exactly one relationship
(with trimmed ids) and succeeds; moreover on a two-object repository the
call succeeds for exactly the (fromType, relType, toType) triples valid per
RELATIONSHIP_TYPE_DEFINITIONS and fails with the invalid-endpoints error on
all others. -/
theorem addRelationship_contract :
    (∀ (repo : EaRepository) (rel : RelationshipInput),
      (jsTrim rel.fromId = "" →
        addRelationship repo rel = (.error "Relationship fromId is required.", repo))
      ∧ (jsTrim rel.fromId ≠ "" → jsTrim rel.toId = "" →
        addRelationship repo rel = (.error "Relationship toId is required.", repo))
      ∧ (jsTrim rel.fromId ≠ "" → jsTrim rel.toId ≠ "" →
          parseRelationshipType rel.type = none →
        addRelationship repo rel
          = (.error ("Invalid relationship type \"" ++ rel.type ++ "\"."), repo))
      ∧ (∀ rt, jsTrim rel.fromId ≠ "" → jsTrim rel.toId ≠ "" →
          parseRelationshipType rel.type = some rt →
          objectsHas repo (jsTrim rel.fromId) = false →
        addRelationship repo rel
          = (.error ("Unknown object id \"" ++ jsTrim rel.fromId ++ "\"."), repo))
      ∧ (∀ rt, jsTrim rel.fromId ≠ "" → jsTrim rel.toId ≠ "" →
          parseRelationshipType rel.type = some rt →
          objectsHas repo (jsTrim rel.fromId) = true →
          objectsHas repo (jsTrim rel.toId) = false →
        addRelationship repo rel
          = (.error ("Unknown object id \"" ++ jsTrim rel.toId ++ "\"."), repo))
      ∧ (∀ rt fromObj toObj, jsTrim rel.fromId ≠ "" → jsTrim rel.toId ≠ "" →
          parseRelationshipType rel.type = some rt →
          objectsGet repo (jsTrim rel.fromId) = some fromObj →
          objectsGet repo (jsTrim rel.toId) = some toObj →
          ((RELATIONSHIP_TYPE_DEFINITIONS rt).fromTypes.contains fromObj.type
            && (RELATIONSHIP_TYPE_DEFINITIONS rt).toTypes.contains toObj.type) = false →
        addRelationship repo rel
          = (.error ("Invalid endpoints for relationship type \"" ++ rel.type
              ++ "\" (\"" ++ objectTypeName fromObj.type ++ "\" -> \""
              ++ objectTypeName toObj.type ++ "\")."), repo))
      ∧ (∀ rt fromObj toObj, jsTrim rel.fromId ≠ "" → jsTrim rel.toId ≠ "" →
          parseRelationshipType rel.type = some rt →
          objectsGet repo (jsTrim rel.fromId) = some fromObj →
          objectsGet repo (jsTrim rel.toId) = some toObj →
          ((RELATIONSHIP_TYPE_DEFINITIONS rt).fromTypes.contains fromObj.type
            && (RELATIONSHIP_TYPE_DEFINITIONS rt).toTypes.contains toObj.type) = true →
        addRelationship repo rel
          = (.ok (), { repo with relationships := repo.relationships
              ++ [{ fromId := jsTrim rel.fromId, toId := jsTrim rel.toId,
                    type := rt, attributes := rel.attributes }] })))
    ∧ (∀ (ft tt : ObjectType) (rt : RelationshipType),
        addRelationship (tripleTestRepo ft tt) (tripleTestInput rt)
          = (if (RELATIONSHIP_TYPE_DEFINITIONS rt).fromTypes.contains ft
                && (RELATIONSHIP_TYPE_DEFINITIONS rt).toTypes.contains tt then
               (.ok (), { tripleTestRepo ft tt with relationships :=
                 [{ fromId := "a", toId := "b", type := rt, attributes := [] }] })
             else
               (.error ("Invalid endpoints for relationship type \""
                 ++ relationshipTypeName rt ++ "\" (\"" ++ objectTypeName ft
                 ++ "\" -> \"" ++ objectTypeName tt ++ "\")."),
                tripleTestRepo ft tt))) := by
  constructor
  · intro repo rel
    exact ⟨addRelationship_blank_from repo rel,
      addRelationship_blank_to repo rel,
      addRelationship_invalid_type repo rel,
      fun rt => addRelationship_unknown_from repo rel rt,
      fun rt => addRelationship_unknown_to repo rel rt,
      fun rt fromObj toObj h1 h2 hp hf ht hc =>
        addRelationship_invalid_endpoints repo rel rt fromObj toObj h1 h2 hp hf ht hc,
      fun rt fromObj toObj h1 h2 hp hf ht hc =>
        addRelationship_ok repo rel rt fromObj toObj h1 h2 hp hf ht hc⟩
  · intro ft tt rt
    have h1 : jsTrim (tripleTestInput rt).fromId ≠ "" := by
      show jsTrim "a" ≠ ""
      decide
    have h2 : jsTrim (tripleTestInput rt).toId ≠ "" := by
      show jsTrim "b" ≠ ""
      decide
    have hp : parseRelationshipType (tripleTestInput rt).type = some rt := by
      cases rt <;> rfl
    have hf : objectsGet (tripleTestRepo ft tt) (jsTrim (tripleTestInput rt).fromId)
        = some { id := "a", type := ft, attributes := [] } := by
      rfl
    have ht : objectsGet (tripleTestRepo ft tt) (jsTrim (tripleTestInput rt).toId)
        = some { id := "b", type := tt, attributes := [] } := by
      rfl
    by_cases hc : ((RELATIONSHIP_TYPE_DEFINITIONS rt).fromTypes.contains ft
        && (RELATIONSHIP_TYPE_DEFINITIONS rt).toTypes.contains tt) = true
    · rw [if_pos hc]
      have h := addRelationship_ok (tripleTestRepo ft tt) (tripleTestInput rt) rt
        { id := "a", type := ft, attributes := [] }
        { id := "b", type := tt, attributes := [] } h1 h2 hp hf ht hc
      simpa [tripleTestRepo, tripleTestInput] using h
    · rw [if_neg hc]
      have hc' : ((RELATIONSHIP_TYPE_DEFINITIONS rt).fromTypes.contains ft
          && (RELATIONSHIP_TYPE_DEFINITIONS rt).toTypes.contains tt) = false := by
        simpa using hc
      have h := addRelationship_invalid_endpoints (tripleTestRepo ft tt)
        (tripleTestInput rt) rt
        { id := "a", type := ft, attributes := [] }
        { id := "b", type := tt, attributes := [] } h1 h2 hp hf ht hc'
      simpa [tripleTestRepo, tripleTestInput] using h

/-- Witness for C2: a blank fromId is rejected with the exact message, and a
valid Enterprise-HAS-Department insert on a two-object repository succeeds
and appends the relationship. -/
theorem addRelationship_contract_witness :
    addRelationship emptyEaRepository
        { fromId := " ", toId := "b", type := "OWNS", attributes := [] }
      = (.error "Relationship fromId is required.", emptyEaRepository)
    ∧ addRelationship (tripleTestRepo .Enterprise .Department) (tripleTestInput .HAS)
      = (.ok (), { tripleTestRepo .Enterprise .Department with relationships :=
          [{ fromId := "a", toId := "b", type := .HAS, attributes := [] }] }) := by
  constructor
  · exact (addRelationship_contract.1 emptyEaRepository
      { fromId := " ", toId := "b", type := "OWNS", attributes := [] }).1 (by decide)
  · have h := addRelationship_contract.2 .Enterprise .Department .HAS
    rw [if_pos (by decide)] at h
    exact h

/-- C6. Every failing `addObject`, `addRelationship` or
`updateObjectAttributes` call leaves the repository value unchanged, and
`addObject` never succeeds twice with the same id: after a successful
insert, repeating the call always fails with the duplicate-id error. -/
theorem failing_calls_leave_repository_unchanged :
    (∀ (repo : EaRepository) (object : ObjectInput),
      resultIsOk (addObject repo object).1 = false → (addObject repo object).2 = repo)
    ∧ (∀ (repo : EaRepository) (rel : RelationshipInput),
      resultIsOk (addRelationship repo rel).1 = false → (addRelationship repo rel).2 = repo)
    ∧ (∀ (repo : EaRepository) (id : String) (patch : AttrMap) (mode : UpdateMode),
      resultIsOk (updateObjectAttributes repo id patch mode).1 = false →
        (updateObjectAttributes repo id patch mode).2 = repo)
    ∧ (∀ (repo : EaRepository) (object : ObjectInput),
      (addObject repo object).1 = .ok () →
        (addObject (addObject repo object).2 object).1
          = .error ("Duplicate object id \"" ++ jsTrim object.id ++ "\".")) := by
  refine ⟨?_, ?_, ?_, ?_⟩
  · intro repo object h
    rcases addObject_fail_frame repo object with hfr | hok
    · exact hfr
    · rw [hok] at h; simp [resultIsOk] at h
  · intro repo rel h
    rcases addRelationship_fail_frame repo rel with hfr | hok
    · exact hfr
    · rw [hok] at h; simp [resultIsOk] at h
  · intro repo id patch mode h
    rcases updateObjectAttributes_fail_frame repo id patch mode with hfr | hok
    · exact hfr
    · rw [hok] at h; simp [resultIsOk] at h
  · intro repo object h
    by_cases h1 : jsTrim object.id = ""
    · simp [addObject, h1] at h
    · cases hp : parseObjectType object.type with
      | none => simp [addObject, h1, hp] at h
      | some t =>
        by_cases h2 : objectsHas repo (jsTrim object.id) = true
        · simp [addObject, h1, hp, h2] at h
        · have h2' : objectsHas repo (jsTrim object.id) = false := by
            simpa using h2
          have hrepo : (addObject repo object).2
              = { repo with objects := repo.objects
                  ++ [{ id := jsTrim object.id, type := t, attributes := object.attributes }] } := by
            simp [addObject, h1, hp, h2']
          rw [hrepo]
          have hhas : objectsHas { repo with objects := repo.objects
              ++ [{ id := jsTrim object.id, type := t, attributes := object.attributes }] }
              (jsTrim object.id) = true := by
            simp [objectsHas]
          simp [addObject, h1, hp, hhas]

/-- Witness for C6: a duplicate insert of object `"x"` into the empty
repository fails with the duplicate-id error and changes nothing. -/
theorem failing_calls_leave_repository_unchanged_witness :
    (addObject (addObject emptyEaRepository
        { id := "x", type := "Capability", attributes := [] }).2
        { id := "x", type := "Capability", attributes := [] }).1
      = .error "Duplicate object id \"x\"."
    ∧ (addObject (addObject emptyEaRepository
        { id := "x", type := "Capability", attributes := [] }).2
        { id := "x", type := "Capability", attributes := [] }).2
      = (addObject emptyEaRepository
        { id := "x", type := "Capability", attributes := [] }).2 := by
  constructor
  · have h := (failing_calls_leave_repository_unchanged.2.2.2) emptyEaRepository
      { id := "x", type := "Capability", attributes := [] } (by decide)
    simpa using h
  · exact (failing_calls_leave_repository_unchanged.1)
      (addObject emptyEaRepository { id := "x", type := "Capability", attributes := [] }).2
      { id := "x", type := "Capability", attributes := [] } (by decide)

/-- C7. `isObjectTypeWritableForScope` agrees with the four-scope table of
the spec on every scope value (including `none`) and every object type:
Business Unit is layer-based, Domain and Programme use their fixed type
lists, and every other scope (Enterprise / default / unscoped) is fully
writable. -/
theorem isObjectTypeWritableForScope_matches_table :
    ∀ (architectureScope : Option String) (objectType : ObjectType),
      isObjectTypeWritableForScope architectureScope objectType
        = scopeWritableSpecTable architectureScope objectType := by
  intro scope t
  cases scope with
  | none => cases t <;> decide
  | some s =>
    by_cases hp : s = "Programme"
    · subst hp; cases t <;> decide
    · by_cases hb : s = "Business Unit"
      · subst hb; cases t <;> decide
      · by_cases hd : s = "Domain"
        · subst hd; cases t <;> decide
        · have hp' : (some s = some "Programme") = False := by
            simp [hp]
          have hb' : (some s = some "Business Unit") = False := by
            simp [hb]
          have hd' : (some s = some "Domain") = False := by
            simp [hd]
          simp [isObjectTypeWritableForScope, scopeWritableSpecTable, hp', hb', hd']

/-- C8. For every framework value and every relationship type of the closed
enum: under ArchiMate the policy allows exactly DECOMPOSES_TO, REALIZES,
DEPENDS_ON, HOSTED_ON and IMPACTS, and under any other framework (including
none) the empty allow-list imposes no restriction, so every relationship
type is allowed. -/
theorem referenceFramework_policy_characterization :
    ∀ (referenceFramework : Option String) (t : RelationshipType),
      isRelationshipTypeAllowedForReferenceFramework referenceFramework
          (relationshipTypeName t)
        = (if referenceFramework = some "ArchiMate" then
             decide (t ∈ [RelationshipType.DECOMPOSES_TO, RelationshipType.REALIZES,
               RelationshipType.DEPENDS_ON, RelationshipType.HOSTED_ON,
               RelationshipType.IMPACTS])
           else true) := by
  intro fw t
  by_cases hfw : fw = some "ArchiMate"
  · subst hfw; cases t <;> decide
  · have hfw' : (fw = some "ArchiMate") = False := by simp [hfw]
    simp only [isRelationshipTypeAllowedForReferenceFramework,
      getFrameworkRelationshipPolicy, hfw', if_false]
    cases t <;> decide

/-- C9. `clone()` is a deep copy that shares nothing with the original: at
the value level the clone equals the original repository; at the heap level
every cloned object and relationship holds a freshly allocated attribute
map (its address is at or above the original heap's bound, so it is
distinct from every address the original references), cell contents are
copied verbatim, the original's cells are untouched, and, as in the spec's
test, adding a fresh object to the clone succeeds while the original still
does not contain the new id. -/
theorem clone_is_deep_copy :
    (∀ repo : EaRepository, repo.clone = repo)
    ∧ (∀ (repo : HEaRepository) (h : AttrHeap),
        (∀ o ∈ repo.objects, o.attrRef < h.length) →
        (∀ r ∈ repo.relationships, r.attrRef < h.length) →
        (∀ a, a < h.length → heapRead (cloneH repo h).2 a = heapRead h a)
        ∧ (∀ o' ∈ (cloneH repo h).1.objects, h.length ≤ o'.attrRef)
        ∧ (∀ r' ∈ (cloneH repo h).1.relationships, h.length ≤ r'.attrRef)
        ∧ List.Forall₂ (fun o o' => o'.id = o.id ∧ o'.type = o.type
            ∧ heapRead (cloneH repo h).2 o'.attrRef = heapRead h o.attrRef)
            repo.objects (cloneH repo h).1.objects
        ∧ List.Forall₂ (fun r r' => r'.fromId = r.fromId ∧ r'.toId = r.toId ∧ r'.type = r.type
            ∧ heapRead (cloneH repo h).2 r'.attrRef = heapRead h r.attrRef)
            repo.relationships (cloneH repo h).1.relationships)
    ∧ (∀ (repo : EaRepository) (x : ObjectInput) (t : ObjectType),
        jsTrim x.id ≠ "" → parseObjectType x.type = some t →
        objectsHas repo (jsTrim x.id) = false →
        (addObject repo.clone x).1 = .ok ()
        ∧ objectsHas (addObject repo.clone x).2 (jsTrim x.id) = true
        ∧ objectsHas repo (jsTrim x.id) = false) := by
  refine ⟨clone_eq, ?_, ?_⟩
  · intro repo h hvo hvr
    obtain ⟨⟨ext1, hext1⟩, hfreshO, hcopyO⟩ := cloneObjectsH_spec repo.objects h hvo
    have hvr1 : ∀ r ∈ repo.relationships,
        r.attrRef < (cloneObjectsH repo.objects h).2.length := by
      intro r hm
      have := hvr r hm
      rw [hext1, List.length_append]
      omega
    obtain ⟨⟨ext2, hext2⟩, hfreshR, hcopyR⟩ :=
      cloneRelationshipsH_spec repo.relationships (cloneObjectsH repo.objects h).2 hvr1
    have hfinal : (cloneH repo h).2
        = (cloneRelationshipsH repo.relationships (cloneObjectsH repo.objects h).2).2 := rfl
    have hobjs : (cloneH repo h).1.objects = (cloneObjectsH repo.objects h).1 := rfl
    have hrels : (cloneH repo h).1.relationships
        = (cloneRelationshipsH repo.relationships (cloneObjectsH repo.objects h).2).1 := rfl
    refine ⟨?_, ?_, ?_, ?_, ?_⟩
    · intro a ha
      rw [hfinal, hext2, hext1, List.append_assoc,
        heapRead_append_of_lt _ _ _ ha]
    · intro o' hm
      rw [hobjs] at hm
      exact (hfreshO o' hm).1
    · intro r' hm
      rw [hrels] at hm
      have := (hfreshR r' hm).1
      rw [hext1, List.length_append] at this
      omega
    · rw [hfinal, hobjs]
      refine forall2_weaken hcopyO ?_
      intro o o' _ hm' ⟨hid, hty, hread⟩
      refine ⟨hid, hty, ?_⟩
      rw [hext2, heapRead_append_of_lt _ _ _ (hfreshO o' hm').2, hread]
    · rw [hfinal, hrels]
      refine forall2_weaken hcopyR ?_
      intro r r' hm _ ⟨hfi, hti, hty, hread⟩
      refine ⟨hfi, hti, hty, ?_⟩
      rw [hread, hext1, heapRead_append_of_lt _ _ _ (hvr r hm)]
  · intro repo x t h1 hp hhas
    rw [clone_eq]
    refine ⟨?_, ?_, hhas⟩
    · simp [addObject, h1, hp, hhas]
    · have hrepo : (addObject repo x).2
          = { repo with objects := repo.objects
              ++ [{ id := jsTrim x.id, type := t, attributes := x.attributes }] } := by
        simp [addObject, h1, hp, hhas]
      rw [hrepo]
      simp [objectsHas]

/-- Witness for C9: on a one-object, one-relationship repository with a
two-cell heap, the clone leaves the original's first cell unreadably
unchanged, and adding a fresh Capability `"x"` to the clone of a one-object
repository succeeds. -/
theorem clone_is_deep_copy_witness :
    heapRead (cloneH ⟨[⟨"e", .Enterprise, 0⟩], [⟨"e", "e", .OWNS, 1⟩]⟩
        [[("name", "E")], [("note", "r")]]).2 0 = [("name", "E")]
    ∧ (addObject (EaRepository.clone ⟨[⟨"e", .Enterprise, []⟩], []⟩)
        ⟨"x", "Capability", []⟩).1 = .ok () := by
  constructor
  · have h := (clone_is_deep_copy.2.1 ⟨[⟨"e", .Enterprise, 0⟩], [⟨"e", "e", .OWNS, 1⟩]⟩
      [[("name", "E")], [("note", "r")]] (by decide) (by decide)).1 0 (by decide)
    rw [h]
    rfl
  · exact (clone_is_deep_copy.2.2 ⟨[⟨"e", .Enterprise, []⟩], []⟩
      ⟨"x", "Capability", []⟩ .Capability (by decide) (by decide) (by decide)).1

/-- C3. In Strict governance mode the persistence effect never reaches
storage while the four blocking counts sum to a positive number (the
blocking dialog is raised exactly when the debt signature differs from the
last blocked signature), and on the first evaluation with zero debt after a
blocked one it persists again and emits the success message — exactly once,
since every further zero-debt evaluation emits nothing. -/
theorem strict_governance_gate :
    (∀ (st : GovState) (d : DebtSummary), 0 < debtSum d →
      (governanceStrictStep st d).2.persisted = false
      ∧ ((governanceStrictStep st d).2.dialogRaised = true
          ↔ st.lastSaveBlockedKey ≠ some (debtKey d))
      ∧ (governanceStrictStep st d).1.lastSaveBlockedKey = some (debtKey d))
    ∧ (∀ (st : GovState) (d : DebtSummary), debtSum d = 0 →
      (governanceStrictStep st d).2.persisted = true
      ∧ ((governanceStrictStep st d).2.successEmitted = true
          ↔ st.lastSaveBlockedKey.isSome = true)
      ∧ (governanceStrictStep st d).1.lastSaveBlockedKey = none)
    ∧ (∀ (st : GovState) (d1 d2 : DebtSummary), 0 < debtSum d1 → debtSum d2 = 0 →
      (governanceStrictStep (governanceStrictStep st d1).1 d2).2.successEmitted = true
      ∧ ∀ d3, debtSum d3 = 0 →
        (governanceStrictStep
          (governanceStrictStep (governanceStrictStep st d1).1 d2).1 d3).2.successEmitted
          = false) := by
  have hblock : ∀ d : DebtSummary, 0 < debtSum d → blockedStrict d = true := by
    intro d hd
    unfold debtSum at hd
    unfold blockedStrict
    simp only [Bool.or_eq_true, decide_eq_true_eq]
    omega
  have hclean : ∀ d : DebtSummary, debtSum d = 0 → blockedStrict d = false := by
    intro d hd
    unfold debtSum at hd
    unfold blockedStrict
    simp only [Bool.or_eq_false_iff, decide_eq_false_iff_not]
    omega
  have hpos : ∀ (st : GovState) (d : DebtSummary), 0 < debtSum d →
      (governanceStrictStep st d).2.persisted = false
      ∧ ((governanceStrictStep st d).2.dialogRaised = true
          ↔ st.lastSaveBlockedKey ≠ some (debtKey d))
      ∧ (governanceStrictStep st d).1.lastSaveBlockedKey = some (debtKey d) := by
    intro st d hd
    by_cases hkey : st.lastSaveBlockedKey = some (debtKey d)
    · simp [governanceStrictStep, hblock d hd, hkey]
    · simp [governanceStrictStep, hblock d hd, hkey]
  have hzero : ∀ (st : GovState) (d : DebtSummary), debtSum d = 0 →
      (governanceStrictStep st d).2.persisted = true
      ∧ ((governanceStrictStep st d).2.successEmitted = true
          ↔ st.lastSaveBlockedKey.isSome = true)
      ∧ (governanceStrictStep st d).1.lastSaveBlockedKey = none := by
    intro st d hd
    cases hk : st.lastSaveBlockedKey with
    | none => simp [governanceStrictStep, hclean d hd, hk]
    | some k => simp [governanceStrictStep, hclean d hd, hk]
  refine ⟨hpos, hzero, ?_⟩
  intro st d1 d2 hd1 hd2
  have h1 := (hpos st d1 hd1).2.2
  have h2 := hzero (governanceStrictStep st d1).1 d2 hd2
  constructor
  · rw [h2.2.1, h1]
    rfl
  · intro d3 hd3
    have h3 := hzero (governanceStrictStep (governanceStrictStep st d1).1 d2).1 d3 hd3
    have : ((governanceStrictStep
        (governanceStrictStep (governanceStrictStep st d1).1 d2).1 d3).2.successEmitted = true)
        ↔ ((governanceStrictStep (governanceStrictStep st d1).1 d2).1.lastSaveBlockedKey.isSome
            = true) := h3.2.1
    rw [h2.2.2] at this
    simp only [Option.isSome_none] at this
    cases hs : (governanceStrictStep
        (governanceStrictStep (governanceStrictStep st d1).1 d2).1 d3).2.successEmitted
    · rfl
    · exact absurd (this.mp hs) (by simp)

/-- Witness for C3: from an unblocked state, one mandatory finding blocks
persistence; the following zero-debt evaluation emits the success message
and a further zero-debt evaluation stays silent. -/
theorem strict_governance_gate_witness :
    (governanceStrictStep ⟨none, false⟩ ⟨1, 0, 0, 0, 0⟩).2.persisted = false
    ∧ (governanceStrictStep (governanceStrictStep ⟨none, false⟩
        ⟨1, 0, 0, 0, 0⟩).1 ⟨0, 0, 0, 0, 0⟩).2.successEmitted = true
    ∧ (governanceStrictStep (governanceStrictStep (governanceStrictStep ⟨none, false⟩
        ⟨1, 0, 0, 0, 0⟩).1 ⟨0, 0, 0, 0, 0⟩).1 ⟨0, 0, 0, 0, 0⟩).2.successEmitted = false := by
  refine ⟨?_, ?_, ?_⟩
  · exact (strict_governance_gate.1 ⟨none, false⟩ ⟨1, 0, 0, 0, 0⟩ (by decide)).1
  · exact (strict_governance_gate.2.2 ⟨none, false⟩ ⟨1, 0, 0, 0, 0⟩ ⟨0, 0, 0, 0, 0⟩
      (by decide) (by decide)).1
  · exact (strict_governance_gate.2.2 ⟨none, false⟩ ⟨1, 0, 0, 0, 0⟩ ⟨0, 0, 0, 0, 0⟩
      (by decide) (by decide)).2 ⟨0, 0, 0, 0, 0⟩ (by decide)

/-- C4. Repository history is a pair of snapshot stacks bounded by
`HISTORY_LIMIT = 50` with oldest-entry eviction: every state-changing
commit appends the prior serialized snapshot to the undo stack (evicting
the head when full) and clears the redo stack, while suppressed or
no-change effect runs leave both stacks alone; `undoStep` / `redoStep`
preserve the bound on the stack they push to; and in the three-mutation
scenario, undo restores the exact snapshot after mutation #2, redo then
restores the snapshot after mutation #3, and a fourth distinct mutation
after an undo clears the (non-empty) redo stack. -/
theorem history_bounded_undo_redo :
    (∀ (st : HistState) (next prev : String),
      st.suppressHistory = false → st.lastSerialized = some prev → prev ≠ next →
      (commitStep st next).redoStack = []
      ∧ (commitStep st next).undoStack.getLast? = some prev
      ∧ (commitStep st next).lastSerialized = some next
      ∧ ((commitStep st next).undoStack.length ≤ HISTORY_LIMIT
          ∨ st.undoStack.length > HISTORY_LIMIT)
      ∧ (st.undoStack.length = HISTORY_LIMIT →
          (commitStep st next).undoStack = st.undoStack.tail ++ [prev]))
    ∧ (∀ (st : HistState) (next : String),
      (st.suppressHistory = true ∨ st.lastSerialized = none
        ∨ st.lastSerialized = some next) →
      (commitStep st next).undoStack = st.undoStack
      ∧ (commitStep st next).redoStack = st.redoStack)
    ∧ (∀ st : HistState, st.redoStack.length ≤ HISTORY_LIMIT →
      (undoStep st).1.redoStack.length ≤ HISTORY_LIMIT)
    ∧ (∀ st : HistState, st.undoStack.length ≤ HISTORY_LIMIT →
      (redoStep st).1.undoStack.length ≤ HISTORY_LIMIT)
    ∧ (∀ s0 s1 s2 s3 s4 r1 r2 r3 : String,
      s0 ≠ s1 → s1 ≠ s2 → s2 ≠ s3 → r3 ≠ s4 →
      (undoStep (histScenario s0 s1 s2 s3)).2 = some s2
      ∧ (redoStep (commitStep (undoStep (histScenario s0 s1 s2 s3)).1 r1)).2 = some s3
      ∧ (commitStep (undoStep (commitStep (redoStep (commitStep
          (undoStep (histScenario s0 s1 s2 s3)).1 r1)).1 r2)).1 r3).redoStack = [r2]
      ∧ (commitStep (commitStep (undoStep (commitStep (redoStep (commitStep
          (undoStep (histScenario s0 s1 s2 s3)).1 r1)).1 r2)).1 r3) s4).redoStack = []) := by
  refine ⟨?_, ?_, ?_, ?_, ?_⟩
  · intro st next prev hsup hlast hneq
    have hstep : commitStep st next
        = { undoStack := if (st.undoStack ++ [prev]).length > HISTORY_LIMIT
              then (st.undoStack ++ [prev]).tail else st.undoStack ++ [prev],
            redoStack := [], lastSerialized := some next, suppressHistory := false } := by
      simp [commitStep, hsup, hlast, hneq]
    refine ⟨by rw [hstep], ?_, by rw [hstep], ?_, ?_⟩
    · rw [hstep]
      dsimp only
      by_cases hc : (st.undoStack ++ [prev]).length > HISTORY_LIMIT
      · rw [if_pos hc]
        cases hu : st.undoStack with
        | nil =>
          rw [hu] at hc
          simp [HISTORY_LIMIT] at hc
        | cons a l =>
          show (l ++ [prev]).getLast? = some prev
          exact List.getLast?_concat _
      · rw [if_neg hc]
        exact List.getLast?_concat _
    · rw [hstep]
      dsimp only
      by_cases hc : (st.undoStack ++ [prev]).length > HISTORY_LIMIT
      · rw [if_pos hc]
        rcases Nat.lt_or_ge HISTORY_LIMIT st.undoStack.length with hgt | hle2
        · right
          exact hgt
        · left
          rw [List.length_tail, List.length_append]
          simp only [List.length_cons, List.length_nil]
          unfold HISTORY_LIMIT at hle2 ⊢
          omega
      · rw [if_neg hc]
        left
        rw [List.length_append] at hc ⊢
        simp only [List.length_cons, List.length_nil] at hc ⊢
        omega
    · intro h50
      rw [hstep]
      dsimp only
      have hc : (st.undoStack ++ [prev]).length > HISTORY_LIMIT := by
        rw [List.length_append, h50]
        simp [HISTORY_LIMIT]
      rw [if_pos hc]
      cases hu : st.undoStack with
      | nil =>
        rw [hu] at h50
        simp [HISTORY_LIMIT] at h50
      | cons a l => rfl
  · intro st next hcase
    rcases hcase with hs | hn | hsame
    · constructor <;> simp [commitStep, hs]
    · constructor <;> simp [commitStep, hn]
    · constructor <;> simp [commitStep, hsame]
  · intro st hle
    unfold HISTORY_LIMIT at hle ⊢
    unfold undoStep
    cases st.undoStack.getLast? with
    | none => exact hle
    | some prevRaw =>
      dsimp only
      cases st.lastSerialized with
      | none => exact hle
      | some cur =>
        dsimp only
        by_cases hc : (cur :: st.redoStack).length > HISTORY_LIMIT
        · rw [if_pos hc]
          rw [List.length_dropLast, List.length_cons]
          unfold HISTORY_LIMIT at hc
          omega
        · rw [if_neg hc]
          rw [List.length_cons] at hc ⊢
          unfold HISTORY_LIMIT at hc
          omega
  · intro st hle
    unfold HISTORY_LIMIT at hle ⊢
    unfold redoStep
    cases st.redoStack.head? with
    | none => exact hle
    | some nextRaw =>
      dsimp only
      cases st.lastSerialized with
      | none => exact hle
      | some cur =>
        dsimp only
        by_cases hc : (st.undoStack ++ [cur]).length > HISTORY_LIMIT
        · rw [if_pos hc]
          rw [List.length_tail, List.length_append]
          simp only [List.length_cons, List.length_nil]
          unfold HISTORY_LIMIT at hc
          omega
        · rw [if_neg hc]
          rw [List.length_append] at hc
          rw [List.length_append]
          simp only [List.length_cons, List.length_nil] at hc ⊢
          unfold HISTORY_LIMIT at hc
          omega
  · intro s0 s1 s2 s3 s4 r1 r2 r3 h01 h12 h23 h34
    have ht : histScenario s0 s1 s2 s3
        = ⟨[s0, s1, s2], [], some s3, false⟩ := by
      simp [histScenario, commitStep, HISTORY_LIMIT, h01, h12, h23]
    refine ⟨?_, ?_, ?_, ?_⟩
    · rw [ht]
      simp [undoStep, HISTORY_LIMIT]
    · rw [ht]
      simp [undoStep, commitStep, redoStep, HISTORY_LIMIT]
    · rw [ht]
      simp [undoStep, commitStep, redoStep, HISTORY_LIMIT]
    · rw [ht]
      simp [undoStep, commitStep, redoStep, HISTORY_LIMIT, h34]

/-- Witness for C4: the scenario run on concrete snapshot strings, plus one
concrete state-changing commit clearing a non-empty redo stack. -/
theorem history_bounded_undo_redo_witness :
    (undoStep (histScenario "s0" "s1" "s2" "s3")).2 = some "s2"
    ∧ (redoStep (commitStep (undoStep (histScenario "s0" "s1" "s2" "s3")).1 "r1")).2
        = some "s3"
    ∧ (commitStep (commitStep (undoStep (commitStep (redoStep (commitStep
        (undoStep (histScenario "s0" "s1" "s2" "s3")).1 "r1")).1 "r2")).1 "r3") "s4").redoStack
        = []
    ∧ (commitStep ⟨["u"], ["r"], some "p", false⟩ "q").redoStack = [] := by
  have h := history_bounded_undo_redo.2.2.2.2 "s0" "s1" "s2" "s3" "s4" "r1" "r2" "r3"
    (by decide) (by decide) (by decide) (by decide)
  refine ⟨h.1, h.2.1, h.2.2.2, ?_⟩
  exact (history_bounded_undo_redo.1 ⟨["u"], ["r"], some "p", false⟩ "q" "p"
    rfl rfl (by decide)).1

/-- C5. `createView` rejects every view definition in which some allowed
relationship type's canonical endpoint rule is not covered by the
allowed-element-type set (at least one valid from-type AND one valid
to-type are required); in particular a CapabilityMap view allowing only
Capability elements with REALIZED_BY is rejected with the exact message
naming the required endpoint types Capability -> BusinessService. -/
theorem createView_requires_endpoint_coverage :
    (∀ (st : ViewRepoState) (view : ViewDefinition) (t : String)
        (ep : RelationshipEndpointRule),
      t ∈ normalizeList view.allowedRelationshipTypes →
      getRelationshipEndpointRule t = some ep →
      (hasAny (normalizeList view.allowedElementTypes) ep.ruleFrom = false
        ∨ hasAny (normalizeList view.allowedElementTypes) ep.ruleTo = false) →
      ∀ w, (createView st view).1 ≠ .ok w)
    ∧ createView emptyViewRepoState
        ⟨"v1", "Capability Map", "CapabilityMap", ["Capability"], ["REALIZED_BY"], []⟩
      = (.error (.endpointNotCovered "REALIZED_BY" ["Capability"] ["BusinessService"]
          ["Capability"]), emptyViewRepoState)
    ∧ renderCreateErr (.endpointNotCovered "REALIZED_BY" ["Capability"] ["BusinessService"]
        ["Capability"])
      = "Rejected createView: relationshipType \"REALIZED_BY\" requires endpoint types (Capability -> BusinessService), but allowedElementTypes=[Capability]." := by
  refine ⟨?_, by decide, by decide⟩
  intro st view t ep hmem hrule hbad w hok
  rcases createView_cases st view with ⟨_, hne⟩ | ⟨_, _, _, _, hcov⟩
  · exact hne w hok
  · have hcovered := checkEndpointCoverage_none _ _ hcov t hmem ep hrule
    rcases hbad with h | h
    · rw [hcovered.1] at h
      exact absurd h (by simp)
    · rw [hcovered.2] at h
      exact absurd h (by simp)

/-- Witness for C5: the CapabilityMap/REALIZED_BY scenario definition is
not accepted. -/
theorem createView_requires_endpoint_coverage_witness :
    (createView emptyViewRepoState
        ⟨"v1", "Capability Map", "CapabilityMap", ["Capability"], ["REALIZED_BY"], []⟩).1
      ≠ .ok (storedView
        ⟨"v1", "Capability Map", "CapabilityMap", ["Capability"], ["REALIZED_BY"], []⟩) :=
  createView_requires_endpoint_coverage.1 emptyViewRepoState
    ⟨"v1", "Capability Map", "CapabilityMap", ["Capability"], ["REALIZED_BY"], []⟩
    "REALIZED_BY" ⟨["Capability"], ["BusinessService"]⟩
    (by decide) (by decide) (Or.inr (by decide)) _

/-- C10. The case-insensitive name index always holds exactly one entry per
stored view (mapping the normalized stored name to the view's id, with ids
and normalized names pairwise distinct): the invariant holds for the empty
store and is preserved by every `createView` and `deleteViewById`; and
after a successful delete the removed view's normalized name is released,
so a later `createView` with the same name in any letter case is never
rejected as a duplicate name. -/
theorem view_name_index_invariant :
    viewNameIndexConsistent emptyViewRepoState
    ∧ (∀ (st : ViewRepoState) (v : ViewDefinition),
        viewNameIndexConsistent st → viewNameIndexConsistent (createView st v).2)
    ∧ (∀ (st : ViewRepoState) (id : String),
        viewNameIndexConsistent st → viewNameIndexConsistent (deleteViewById st id).2)
    ∧ (∀ (st : ViewRepoState) (id : String) (v : ViewDefinition),
        viewNameIndexConsistent st → (deleteViewById st id).1 = .ok v →
        alookup (normalizeName v.name) (deleteViewById st id).2.idByNormalizedName = none
        ∧ ∀ (v' : ViewDefinition) (n : String),
            normalizeName (jsTrim v'.name) = normalizeName v.name →
            (createView (deleteViewById st id).2 v').1 ≠ .error (.duplicateName n)) := by
  refine ⟨⟨rfl, List.nodup_nil, List.nodup_nil⟩, ?_, ?_, ?_⟩
  · intro st v hInv
    rcases createView_cases st v with ⟨hst, _⟩ | ⟨_, hst, hid, hname, _⟩
    · rw [hst]
      exact hInv
    · rw [hst]
      obtain ⟨hmapEq, hndIds, hndNames⟩ := hInv
      have hidnone : alookup (jsTrim v.id) st.byId = none := by
        cases hl : alookup (jsTrim v.id) st.byId with
        | none => rfl
        | some x => rw [hl] at hid; simp at hid
      have hnamenone :
          alookup (normalizeName (jsTrim v.name)) st.idByNormalizedName = none := by
        cases hl : alookup (normalizeName (jsTrim v.name)) st.idByNormalizedName with
        | none => rfl
        | some x => rw [hl] at hname; simp at hname
      refine ⟨?_, ?_, ?_⟩
      · show st.idByNormalizedName ++ [(normalizeName (jsTrim v.name), jsTrim v.id)] = _
        rw [List.map_append, ← hmapEq]
        simp [storedView]
      · show (List.map Prod.fst (st.byId ++ [(jsTrim v.id, storedView v)])).Nodup
        rw [List.map_append]
        exact nodup_append_singleton hndIds ((alookup_eq_none_iff _ _).mp hidnone)
      · show (List.map (fun p => normalizeName p.2.name)
            (st.byId ++ [(jsTrim v.id, storedView v)])).Nodup
        rw [List.map_append]
        refine nodup_append_singleton hndNames ?_
        have h1 := (alookup_eq_none_iff _ _).mp hnamenone
        rw [hmapEq, List.map_map] at h1
        simpa [Function.comp, storedView] using h1
  · intro st id hInv
    unfold deleteViewById
    dsimp only
    by_cases hk : jsTrim id = ""
    · rw [if_pos hk]
      exact hInv
    · rw [if_neg hk]
      cases hl : alookup (jsTrim id) st.byId with
      | none => exact hInv
      | some v =>
        dsimp only
        obtain ⟨hmapEq, hndIds, hndNames⟩ := hInv
        have hiff : ∀ e ∈ st.byId,
            e.1 = jsTrim id ↔ normalizeName e.2.name = normalizeName v.name := by
          intro e hmem
          constructor
          · intro h1
            have he := alookup_unique hndIds hl e hmem h1
            rw [he]
          · intro h2
            have hmemkv : (jsTrim id, v) ∈ st.byId := alookup_mem hl
            have he := List.inj_on_of_nodup_map hndNames hmem hmemkv h2
            rw [he]
        refine ⟨?_, ?_, ?_⟩
        · show st.idByNormalizedName.eraseP (fun p => p.1 = normalizeName v.name)
            = ((st.byId.eraseP (fun p => p.1 = jsTrim id)).map
                (fun p => (normalizeName p.2.name, p.1)))
          rw [hmapEq, map_eraseP_comm (jsTrim id) (normalizeName v.name) st.byId hiff]
        · exact ((List.eraseP_sublist st.byId).map Prod.fst).nodup hndIds
        · exact ((List.eraseP_sublist st.byId).map
            (fun p => normalizeName p.2.name)).nodup hndNames
  · intro st id v hInv hok
    unfold deleteViewById at hok ⊢
    dsimp only at hok ⊢
    by_cases hk : jsTrim id = ""
    · rw [if_pos hk] at hok
      exact absurd hok (by simp)
    · rw [if_neg hk] at hok ⊢
      cases hl : alookup (jsTrim id) st.byId with
      | none =>
        rw [hl] at hok
        exact absurd hok (by simp)
      | some v0 =>
        rw [hl] at hok
        dsimp only at hok ⊢
        have hv : v0 = v := by simpa using hok
        subst hv
        obtain ⟨hmapEq, hndIds, hndNames⟩ := hInv
        have hrel : alookup (normalizeName v0.name)
            (st.idByNormalizedName.eraseP (fun p => p.1 = normalizeName v0.name))
            = none := by
          apply alookup_eraseP_self
          rw [hmapEq, List.map_map]
          simpa [Function.comp] using hndNames
        refine ⟨hrel, ?_⟩
        intro v' n hn heq
        have hreq := createView_dupName_requires _ v' n heq
        rw [hn] at hreq
        dsimp only at hreq
        rw [hrel] at hreq
        simp at hreq

/-- Witness for C10: create a view named `Alpha`, delete it, and the name is
released — re-creating with the differently-cased name `ALPHA` is not a
duplicate-name rejection. -/
theorem view_name_index_invariant_witness :
    alookup (normalizeName "Alpha")
        (deleteViewById (createView emptyViewRepoState
          ⟨"v1", "Alpha", "ApplicationLandscape", ["Application"], [], []⟩).2
          "v1").2.idByNormalizedName = none
    ∧ (createView (deleteViewById (createView emptyViewRepoState
          ⟨"v1", "Alpha", "ApplicationLandscape", ["Application"], [], []⟩).2 "v1").2
        ⟨"v2", "ALPHA", "ApplicationLandscape", ["Application"], [], []⟩).1
      ≠ .error (.duplicateName "ALPHA") := by
  have h := view_name_index_invariant.2.2.2 (createView emptyViewRepoState
      ⟨"v1", "Alpha", "ApplicationLandscape", ["Application"], [], []⟩).2 "v1"
      ⟨"v1", "Alpha", "ApplicationLandscape", ["Application"], [], []⟩
      (by decide) (by decide)
  exact ⟨h.1, h.2 ⟨"v2", "ALPHA", "ApplicationLandscape", ["Application"], [], []⟩
    "ALPHA" (by decide)⟩
